import Mathlib

/-!
# Verification of the edge-tts-universal synthesis engine

A shallow embedding, in Lean 4, of the core logic of the `edge-tts-universal`
TypeScript repository: the text segmenter (`src/utils.ts`), the DRM / security
token provider (`src/drm.ts`), the subtitle cue aggregator (`src/submaker.ts`),
and the per-frame / per-segment logic of the two synthesis engines
(`Communicate` and `IsomorphicCommunicate`).

Modelling conventions:
* JavaScript numbers are modelled as `ℚ` where the values involved stay exact
  (time arithmetic, tick conversion), with `JsNum := Option ℚ` where `NaN`
  matters (`none` plays `NaN`); machine integers from the wire protocol
  (offsets, durations) are `ℤ`.
* Node `Buffer`s are `List ℕ` (byte values); JavaScript strings are Lean
  `String`s (or `List Char` in helper functions).
* Unbounded `while` loops are given explicit fuel; `none` marks fuel
  exhaustion, i.e. a loop that did not terminate within the given fuel.
* Fallible code returns `Except`; a thrown exception class is identified by a
  string tag naming the class.
-/

namespace EdgeTTS

/-! ## Decimal representation of numbers (JS `Number.prototype.toString`) -/

/-- Base-10 digits of `n`, least significant first, computed with explicit
fuel so that the definition is structurally recursive (kernel-reducible).
`natDigitsAux fuel n = Nat.digits 10 n` whenever `n ≤ fuel`. -/
def natDigitsAux : ℕ → ℕ → List ℕ
  | 0, _ => []
  | _ + 1, 0 => []
  | fuel + 1, n + 1 => ((n + 1) % 10) :: natDigitsAux fuel ((n + 1) / 10)

/-- Base-10 digits of `n`, least significant first. -/
def decimalDigits (n : ℕ) : List ℕ := natDigitsAux n n

theorem natDigitsAux_eq_digits : ∀ (fuel n : ℕ), n ≤ fuel →
    natDigitsAux fuel n = Nat.digits 10 n := by
  intro fuel
  induction fuel with
  | zero => intro n hn; interval_cases n; simp [natDigitsAux]
  | succ f ih =>
    intro n hn
    match n with
    | 0 => simp [natDigitsAux]
    | m + 1 =>
      rw [natDigitsAux, Nat.digits_def' (by norm_num) (Nat.succ_pos m)]
      have hdiv : (m + 1) / 10 ≤ f := by
        have h1 : (m + 1) / 10 < m + 1 := Nat.div_lt_self (Nat.succ_pos m) (by norm_num)
        omega
      rw [ih _ hdiv]

theorem decimalDigits_eq_digits (n : ℕ) : decimalDigits n = Nat.digits 10 n :=
  natDigitsAux_eq_digits n n le_rfl

/-- The decimal string of a natural number, as produced by JavaScript's
`Number.prototype.toString()` for non-negative integers. -/
def decimalRepr (n : ℕ) : String :=
  if n = 0 then "0" else ((decimalDigits n).reverse.map Nat.digitChar).asString

theorem digitChar_inj_lt10 : ∀ a < 10, ∀ b < 10, Nat.digitChar a = Nat.digitChar b → a = b := by
  decide

theorem map_digitChar_inj : ∀ (l₁ l₂ : List ℕ), (∀ x ∈ l₁, x < 10) → (∀ x ∈ l₂, x < 10) →
    l₁.map Nat.digitChar = l₂.map Nat.digitChar → l₁ = l₂ := by
  intro l₁
  induction l₁ with
  | nil => intro l₂ _ _ h; cases l₂ <;> simp_all
  | cons a t ih =>
    intro l₂ h₁ h₂ h
    cases l₂ with
    | nil => simp at h
    | cons b t₂ =>
      simp only [List.map_cons, List.cons.injEq] at h
      have ha : a < 10 := h₁ a (by simp)
      have hb : b < 10 := h₂ b (by simp)
      have hab : a = b := digitChar_inj_lt10 a ha b hb h.1
      have ht : t = t₂ := ih t₂ (fun x hx => h₁ x (by simp [hx])) (fun x hx => h₂ x (by simp [hx])) h.2
      rw [hab, ht]

theorem decimalDigits_lt10 {n x : ℕ} (hx : x ∈ decimalDigits n) : x < 10 := by
  rw [decimalDigits_eq_digits] at hx
  exact Nat.digits_lt_base (by norm_num) hx

/-- The decimal string of a positive number is never `"0"`. -/
theorem decimalRepr_pos_ne_zeroStr {n : ℕ} (hn : n ≠ 0) : decimalRepr n ≠ "0" := by
  intro h
  rw [decimalRepr, if_neg hn] at h
  have hdata : (decimalDigits n).reverse.map Nat.digitChar = ['0'] :=
    congrArg String.data h
  cases hl : (decimalDigits n).reverse with
  | nil => rw [hl] at hdata; simp at hdata
  | cons d t =>
    rw [hl] at hdata
    simp only [List.map_cons, List.cons.injEq, List.map_eq_nil_iff] at hdata
    have hd10 : d < 10 := by
      refine decimalDigits_lt10 (n := n) ?_
      rw [← List.mem_reverse, hl]; simp
    have hd0 : d = 0 := digitChar_inj_lt10 d hd10 0 (by norm_num) (by rw [hdata.1]; rfl)
    have hdig : decimalDigits n = [0] := by
      have : (decimalDigits n).reverse = [0] := by rw [hl, hd0, hdata.2]
      have := congrArg List.reverse this
      simpa using this
    rw [decimalDigits_eq_digits] at hdig
    have := congrArg (Nat.ofDigits 10) hdig
    rw [Nat.ofDigits_digits] at this
    simp [Nat.ofDigits] at this
    exact hn this

theorem decimalRepr_inj : ∀ (m n : ℕ), decimalRepr m = decimalRepr n → m = n := by
  have key : ∀ (m n : ℕ), ((decimalDigits m).reverse.map Nat.digitChar).asString =
      ((decimalDigits n).reverse.map Nat.digitChar).asString → m = n := by
    intro m n h
    have hdata : ((decimalDigits m).reverse.map Nat.digitChar) =
        ((decimalDigits n).reverse.map Nat.digitChar) :=
      congrArg String.data h
    have hm : ∀ x ∈ (decimalDigits m).reverse, x < 10 := by
      intro x hx; exact decimalDigits_lt10 (List.mem_reverse.mp hx)
    have hn : ∀ x ∈ (decimalDigits n).reverse, x < 10 := by
      intro x hx; exact decimalDigits_lt10 (List.mem_reverse.mp hx)
    have hrev := map_digitChar_inj _ _ hm hn hdata
    have hdig : decimalDigits m = decimalDigits n := List.reverse_injective hrev
    rw [decimalDigits_eq_digits, decimalDigits_eq_digits] at hdig
    have := congrArg (Nat.ofDigits 10) hdig
    rwa [Nat.ofDigits_digits, Nat.ofDigits_digits] at this
  intro m n h
  by_cases hm : m = 0 <;> by_cases hn : n = 0
  · rw [hm, hn]
  · exfalso
    rw [decimalRepr, decimalRepr, if_pos hm, if_neg hn] at h
    exact decimalRepr_pos_ne_zeroStr hn (by rw [decimalRepr, if_neg hn, ← h])
  · exfalso
    rw [decimalRepr, decimalRepr, if_neg hm, if_pos hn] at h
    exact decimalRepr_pos_ne_zeroStr hm (by rw [decimalRepr, if_neg hm, h])
  · rw [decimalRepr, decimalRepr, if_neg hm, if_neg hn] at h
    exact key m n h

/-! ## JS float helpers (exact-rational model) -/

/-- Truncation toward zero, as used by the JavaScript `%` operator. -/
def jsTrunc (q : ℚ) : ℤ := if 0 ≤ q then ⌊q⌋ else -⌊-q⌋

/-- The JavaScript remainder operator `a % b` (sign follows the dividend). -/
def jsFmod (a b : ℚ) : ℚ := a - b * jsTrunc (a / b)

/-- `Math.round`: round half toward positive infinity. -/
def jsMathRound (q : ℚ) : ℤ := ⌊q + 1/2⌋

/-- The decimal string of an integer, as produced by `toString()`. -/
def intRepr (i : ℤ) : String :=
  if i < 0 then "-" ++ decimalRepr (-i).toNat else decimalRepr i.toNat

/-- `x.toFixed(0)` for values below 10^21: round half away from zero, then
print the integer in decimal. -/
def jsToFixed0 (q : ℚ) : String :=
  if q < 0 then "-" ++ decimalRepr (⌊-q + 1/2⌋).toNat else decimalRepr (⌊q + 1/2⌋).toNat

theorem jsTrunc_of_nonneg {q : ℚ} (h : 0 ≤ q) : jsTrunc q = ⌊q⌋ := by
  simp [jsTrunc, h]

theorem jsFmod_nonneg_eq (a b : ℚ) (ha : 0 ≤ a) (hb : 0 < b) :
    jsFmod a b = a - b * ⌊a / b⌋ := by
  rw [jsFmod, jsTrunc_of_nonneg (div_nonneg ha hb.le)]

/-! ## JS numbers with NaN

`JsNum` models an IEEE double that is either an exact value (`some q`, used
where all intermediate values are exactly representable) or `NaN` (`none`).
`NaN` propagates through arithmetic and compares unequal to everything. -/

def JsNum : Type := Option ℚ

instance : DecidableEq JsNum := fun a b => inferInstanceAs (DecidableEq (Option ℚ)) a b

/-- `NaN`. -/
def JsNum.nan : JsNum := none

/-- An exact numeric value. -/
def JsNum.val (q : ℚ) : JsNum := some q

def JsNum.add : JsNum → JsNum → JsNum
  | some a, some b => some (a + b)
  | _, _ => none

def JsNum.sub : JsNum → JsNum → JsNum
  | some a, some b => some (a - b)
  | _, _ => none

def JsNum.divConst : JsNum → ℚ → JsNum
  | some a, c => some (a / c)
  | none, _ => none

/-! ## DRM (`src/drm.ts`): clock skew and the Sec-MS-GEC security token

The wall clock (`Date.now()`, in milliseconds) and the JS `Date`-string parser
(`new Date(s).getTime()`, milliseconds, `NaN` when unparseable — it never
throws) are platform functions, passed in as explicit parameters. The
process-wide mutable `clockSkewSeconds` static is passed as explicit state. -/

namespace DRM

/-- `WIN_EPOCH` constant from `src/drm.ts` (seconds between the Windows epoch
and the Unix epoch). -/
def WIN_EPOCH : ℚ := 11644473600

/-- `TRUSTED_CLIENT_TOKEN` constant from `src/constants.ts`. -/
def TRUSTED_CLIENT_TOKEN : String := "6A5AA1D4EAFF4E9FB37E23D68491D6F4"

/-- `DRM.adjClockSkewSeconds(skewSeconds)`: `clockSkewSeconds += skewSeconds`. -/
def adjClockSkewSeconds (clockSkewSeconds skewSeconds : JsNum) : JsNum :=
  clockSkewSeconds.add skewSeconds

/-- `DRM.getUnixTimestamp()`: `Date.now() / 1000 + clockSkewSeconds`.
`wallMs` is the current `Date.now()` value. -/
def getUnixTimestamp (wallMs : ℚ) (clockSkewSeconds : JsNum) : JsNum :=
  (JsNum.val (wallMs / 1000)).add clockSkewSeconds

/-- `DRM.parseRfc2616Date(date)`: `new Date(date).getTime() / 1000` inside a
`try`/`catch` that returns `null` on exception. `dateParseMs` models
`s ↦ new Date(s).getTime()`; since that call never throws (an unparseable
date yields `NaN`, not an exception), the `catch` branch is unreachable and
the result is never `null` (`none` of the outer `Option`). -/
def parseRfc2616Date (dateParseMs : String → JsNum) (date : String) : Option JsNum :=
  some ((dateParseMs date).divConst 1000)

/-- `DRM.handleClientResponseError(e)` from `src/drm.ts`. The input is the
response's header map (`none` when `e.response`/`e.response.headers` is
absent); the state is the current skew; the result is the new skew, or the
thrown `SkewAdjustmentError`'s message. The source's guard
`if (!serverDate || typeof serverDate !== 'string')` rejects a falsy value:
in the header-map model the values are strings, so the `typeof` test is
vacuous and the falsy strings are exactly the empty string. -/
def handleClientResponseError (dateParseMs : String → JsNum) (wallMs : ℚ)
    (clockSkewSeconds : JsNum) (headers : Option (List (String × String))) :
    Except String JsNum :=
  match headers with
  | none => .error "SkewAdjustmentError: No server date in headers."
  | some hs =>
    match hs.lookup "date" with
    | none => .error "SkewAdjustmentError: No server date in headers."
    | some serverDate =>
      if serverDate = "" then .error "SkewAdjustmentError: No server date in headers."
      else
        match parseRfc2616Date dateParseMs serverDate with
        | none => .error ("SkewAdjustmentError: Failed to parse server date: " ++ serverDate)
        | some serverDateParsed =>
          let clientDate := getUnixTimestamp wallMs clockSkewSeconds
          .ok (adjClockSkewSeconds clockSkewSeconds (serverDateParsed.sub clientDate))

/-- The tick computation of `DRM.generateSecMsGec()`:
`ticks = getUnixTimestamp(); ticks += WIN_EPOCH; ticks -= ticks % 300;
ticks *= 1e9 / 100`. -/
def secMsGecTicks (wallMs : ℚ) (clockSkewSeconds : JsNum) : JsNum :=
  match (getUnixTimestamp wallMs clockSkewSeconds).add (JsNum.val WIN_EPOCH) with
  | none => none
  | some t => some ((t - jsFmod t 300) * ((10 ^ 9 : ℚ) / 100))

/-- `ticks.toFixed(0)` on a `JsNum` (`NaN.toFixed(0) = "NaN"`). -/
def jsNumToFixed0 : JsNum → String
  | none => "NaN"
  | some q => jsToFixed0 q

/-- The string that `DRM.generateSecMsGec()` hashes:
`` `${ticks.toFixed(0)}${TRUSTED_CLIENT_TOKEN}` ``. -/
def secMsGecHashInput (wallMs : ℚ) (clockSkewSeconds : JsNum) : String :=
  jsNumToFixed0 (secMsGecTicks wallMs clockSkewSeconds) ++ TRUSTED_CLIENT_TOKEN

/-- `DRM.generateSecMsGec()`: the uppercase hex SHA-256 digest of
`secMsGecHashInput`. SHA-256 itself is a crypto-library primitive, passed in
as the deterministic function `sha256hex`. -/
def generateSecMsGec (sha256hex : String → String) (wallMs : ℚ)
    (clockSkewSeconds : JsNum) : String :=
  (sha256hex (secMsGecHashInput wallMs clockSkewSeconds)).toUpper

end DRM

/-! ### Facts about the token computation -/

theorem floor_intCast_add_half (n : ℤ) : ⌊(n : ℚ) + 1/2⌋ = n := by
  rw [add_comm, Int.floor_add_int]
  norm_num

theorem jsToFixed0_intCast_nonneg {n : ℤ} (hn : 0 ≤ n) :
    jsToFixed0 (n : ℚ) = decimalRepr n.toNat := by
  rw [jsToFixed0, if_neg (not_lt.mpr (by exact_mod_cast hn)), floor_intCast_add_half]

theorem DRM.secMsGecTicks_eq (wallMs skew : ℚ)
    (h : 0 ≤ wallMs / 1000 + skew + DRM.WIN_EPOCH) :
    DRM.secMsGecTicks wallMs (JsNum.val skew) =
      some ((3000000000 * ⌊(wallMs / 1000 + skew + DRM.WIN_EPOCH) / 300⌋ : ℤ) : ℚ) := by
  set t : ℚ := wallMs / 1000 + skew + DRM.WIN_EPOCH with ht
  have hmatch : (DRM.getUnixTimestamp wallMs (JsNum.val skew)).add (JsNum.val DRM.WIN_EPOCH) =
      some t := by
    simp [DRM.getUnixTimestamp, JsNum.val, JsNum.add, ht, add_assoc]
  rw [DRM.secMsGecTicks, hmatch]
  have hfmod : t - jsFmod t 300 = 300 * ⌊t / 300⌋ := by
    rw [jsFmod_nonneg_eq t 300 h (by norm_num)]; ring
  show some ((t - jsFmod t 300) * ((10 ^ 9 : ℚ) / 100)) = _
  rw [hfmod]
  congr 1
  push_cast
  ring

theorem DRM.secMsGecHashInput_eq (wallMs skew : ℚ)
    (h : 0 ≤ wallMs / 1000 + skew + DRM.WIN_EPOCH) :
    DRM.secMsGecHashInput wallMs (JsNum.val skew) =
      decimalRepr (3000000000 * ⌊(wallMs / 1000 + skew + DRM.WIN_EPOCH) / 300⌋).toNat ++
        DRM.TRUSTED_CLIENT_TOKEN := by
  rw [DRM.secMsGecHashInput, DRM.secMsGecTicks_eq wallMs skew h]
  have hb : 0 ≤ ⌊(wallMs / 1000 + skew + DRM.WIN_EPOCH) / 300⌋ :=
    Int.floor_nonneg.mpr (by positivity)
  rw [jsNumToFixed0, jsToFixed0_intCast_nonneg (by positivity)]

theorem string_append_right_cancel {a b c : String} (h : a ++ c = b ++ c) : a = b := by
  have hdata : a.data ++ c.data = b.data ++ c.data := by
    have := congrArg String.data h
    simpa [String.data_append] using this
  exact String.ext (List.append_cancel_right hdata)

/-- C7: two `generateSecMsGec` calls whose `now()` values (wall clock plus
accumulated skew), after adding the Windows-epoch constant, fall in the same
300-second bucket (skew unchanged between the calls) return the identical
uppercase-hex SHA-256 token; calls in different buckets hash different decimal
tick strings. -/
theorem claim_C7_token_bucket (sha256hex : String → String) (wall1 wall2 skew : ℚ)
    (h1 : 0 ≤ wall1 / 1000 + skew + DRM.WIN_EPOCH)
    (h2 : 0 ≤ wall2 / 1000 + skew + DRM.WIN_EPOCH) :
    (⌊(wall1 / 1000 + skew + DRM.WIN_EPOCH) / 300⌋ =
        ⌊(wall2 / 1000 + skew + DRM.WIN_EPOCH) / 300⌋ →
      DRM.generateSecMsGec sha256hex wall1 (JsNum.val skew) =
        DRM.generateSecMsGec sha256hex wall2 (JsNum.val skew)) ∧
    (⌊(wall1 / 1000 + skew + DRM.WIN_EPOCH) / 300⌋ ≠
        ⌊(wall2 / 1000 + skew + DRM.WIN_EPOCH) / 300⌋ →
      DRM.secMsGecHashInput wall1 (JsNum.val skew) ≠
        DRM.secMsGecHashInput wall2 (JsNum.val skew)) := by
  constructor
  · intro hb
    unfold DRM.generateSecMsGec
    rw [DRM.secMsGecHashInput_eq _ _ h1, DRM.secMsGecHashInput_eq _ _ h2, hb]
  · intro hb heq
    rw [DRM.secMsGecHashInput_eq _ _ h1, DRM.secMsGecHashInput_eq _ _ h2] at heq
    have hnat := decimalRepr_inj _ _ (string_append_right_cancel heq)
    have hb1 : 0 ≤ ⌊(wall1 / 1000 + skew + DRM.WIN_EPOCH) / 300⌋ :=
      Int.floor_nonneg.mpr (by positivity)
    have hb2 : 0 ≤ ⌊(wall2 / 1000 + skew + DRM.WIN_EPOCH) / 300⌋ :=
      Int.floor_nonneg.mpr (by positivity)
    exact hb (by omega)

/-- Witness for C7 at `wallMs = 0`, `skew = 0`, identity hash. -/
theorem claim_C7_token_bucket_witness :
    ((0:ℚ) ≤ 0 / 1000 + 0 + DRM.WIN_EPOCH) ∧
    ((⌊((0:ℚ) / 1000 + 0 + DRM.WIN_EPOCH) / 300⌋ =
        ⌊((0:ℚ) / 1000 + 0 + DRM.WIN_EPOCH) / 300⌋ →
      DRM.generateSecMsGec id 0 (JsNum.val 0) = DRM.generateSecMsGec id 0 (JsNum.val 0)) ∧
    (⌊((0:ℚ) / 1000 + 0 + DRM.WIN_EPOCH) / 300⌋ ≠
        ⌊((0:ℚ) / 1000 + 0 + DRM.WIN_EPOCH) / 300⌋ →
      DRM.secMsGecHashInput 0 (JsNum.val 0) ≠ DRM.secMsGecHashInput 0 (JsNum.val 0))) := by
  have h : (0:ℚ) ≤ 0 / 1000 + 0 + DRM.WIN_EPOCH := by norm_num [DRM.WIN_EPOCH]
  exact ⟨h, claim_C7_token_bucket id 0 0 0 h h⟩

/-- C4 (code bug): `handleClientResponseError` does raise `SkewAdjustmentError`
when the response is absent and when its `Date` header is absent or empty
(the falsy guard), but for a present, non-empty, *unparseable* `Date` header
it does **not** raise: `new Date(bad).getTime()` returns `NaN` instead of
throwing, so `parseRfc2616Date` never returns `null`, the `=== null` guard
never fires, and `NaN` is added to the process-wide `clockSkewSeconds`,
permanently poisoning it — contradicting the claim (and the function's own
documentation) that an invalid date raises `SkewAdjustmentError` and leaves
the skew unchanged. -/
theorem claim_C4_skew_nan_poisoning (dateParseMs : String → JsNum) (wallMs : ℚ)
    (skew : JsNum) (d : String) (hne : d ≠ "") (hbad : dateParseMs d = JsNum.nan) :
    DRM.handleClientResponseError dateParseMs wallMs skew none =
      .error "SkewAdjustmentError: No server date in headers." ∧
    DRM.handleClientResponseError dateParseMs wallMs skew (some []) =
      .error "SkewAdjustmentError: No server date in headers." ∧
    DRM.handleClientResponseError dateParseMs wallMs skew (some [("date", "")]) =
      .error "SkewAdjustmentError: No server date in headers." ∧
    DRM.handleClientResponseError dateParseMs wallMs skew (some [("date", d)]) =
      .ok JsNum.nan := by
  refine ⟨rfl, rfl, rfl, ?_⟩
  show (if d = "" then
      Except.error "SkewAdjustmentError: No server date in headers."
    else match DRM.parseRfc2616Date dateParseMs d with
    | none => Except.error ("SkewAdjustmentError: Failed to parse server date: " ++ d)
    | some serverDateParsed =>
      Except.ok (DRM.adjClockSkewSeconds skew
        (serverDateParsed.sub (DRM.getUnixTimestamp wallMs skew)))) = Except.ok JsNum.nan
  rw [if_neg hne, DRM.parseRfc2616Date, hbad]
  show Except.ok (DRM.adjClockSkewSeconds skew
      ((JsNum.divConst JsNum.nan 1000).sub (DRM.getUnixTimestamp wallMs skew))) = _
  have hsub : (JsNum.divConst JsNum.nan 1000).sub (DRM.getUnixTimestamp wallMs skew) =
      JsNum.nan := rfl
  rw [hsub]
  show Except.ok (skew.add JsNum.nan) = Except.ok JsNum.nan
  cases skew <;> rfl

/-- Witness for C4 with a concrete non-empty, unparseable `Date` header. -/
theorem claim_C4_skew_nan_poisoning_witness :
    ("not-a-date" : String) ≠ "" ∧
    ((fun _ : String => JsNum.nan) "not-a-date" = JsNum.nan) ∧
    DRM.handleClientResponseError (fun _ => JsNum.nan) 0 (JsNum.val 0)
      (some [("date", "not-a-date")]) = .ok JsNum.nan :=
  ⟨by decide, rfl,
    (claim_C4_skew_nan_poisoning (fun _ => JsNum.nan) 0 (JsNum.val 0) "not-a-date"
      (by decide) rfl).2.2.2⟩

/-! ## JS string splitting (`String.prototype.split(' ')`) -/

/-- Worker for `split(' ')`: `acc` holds the current (reversed) field. -/
def jsSplitSpaceAux : List Char → List Char → List (List Char)
  | [], acc => [acc.reverse]
  | c :: rest, acc =>
    if c = ' ' then acc.reverse :: jsSplitSpaceAux rest []
    else jsSplitSpaceAux rest (c :: acc)

/-- JavaScript `s.split(' ')` (split on every single space character;
`"".split(' ') = [""]`). -/
def jsSplitSpace (s : String) : List String :=
  (jsSplitSpaceAux s.data []).map List.asString

/-- `Array.prototype.join(sep)`. -/
def jsJoin (sep : String) : List String → String
  | [] => ""
  | [x] => x
  | x :: y :: rest => x ++ sep ++ jsJoin sep (y :: rest)

/-- The `TTSChunk` record from `src/types.ts` (fields are optional in TS;
`data` is spelled `audioData`). -/
structure TTSChunk where
  type : String
  audioData : Option (List ℕ) := none
  offset : Option ℤ := none
  duration : Option ℤ := none
  text : Option String := none
  deriving DecidableEq

/-! ## SubMaker (`src/submaker.ts`) -/

namespace SubMaker

/-- The `Cue` record of `src/submaker.ts` (`end` is spelled `stop` because
`end` is a Lean keyword). `start`/`stop` are in seconds. -/
structure Cue where
  index : ℕ
  start : ℚ
  stop : ℚ
  content : String
  deriving DecidableEq

/-- `padStart(size, '0')`. -/
def padStartZero (s : String) (size : ℕ) : String :=
  if size ≤ s.length then s else (List.replicate (size - s.length) '0').asString ++ s

/-- The local `pad` helper of `formatTime`. -/
def pad (num : ℤ) (size : ℕ) : String := padStartZero (intRepr num) size

/-- `formatTime(seconds)` from `src/submaker.ts`. -/
def formatTime (seconds : ℚ) : String :=
  let h := ⌊seconds / 3600⌋
  let m := ⌊jsFmod seconds 3600 / 60⌋
  let s := ⌊jsFmod seconds 60⌋
  let ms := jsMathRound ((seconds - ⌊seconds⌋) * 1000)
  pad h 2 ++ ":" ++ pad m 2 ++ ":" ++ pad s 2 ++ "," ++ pad ms 3

/-- `SubMaker.feed(msg)`: state is the private `cues` array. -/
def feed (cues : List Cue) (msg : TTSChunk) : Except String (List Cue) :=
  if msg.type ≠ "WordBoundary" ∨ msg.offset = none ∨ msg.duration = none ∨ msg.text = none then
    .error "ValueError: Invalid message type, expected WordBoundary with offset, duration and text"
  else
    let o := msg.offset.getD 0
    let d := msg.duration.getD 0
    .ok (cues ++ [{ index := cues.length + 1,
                    start := (o : ℚ) / 10000000,
                    stop := ((o + d : ℤ) : ℚ) / 10000000,
                    content := msg.text.getD "" }])

/-- The cue-merging step inside `mergeCues`'s `for` loop:
`currentCue = {...currentCue, end: cue.end, content: currentCue.content + ' ' + cue.content}`. -/
def mergeTwo (cur c : Cue) : Cue :=
  { cur with stop := c.stop, content := cur.content ++ " " ++ c.content }

/-- The `for (const cue of this.cues.slice(1))` loop of `mergeCues`,
including the final `newCues.push(currentCue)`. -/
def mergeLoop (words : ℤ) (cur : Cue) : List Cue → List Cue
  | [] => [cur]
  | c :: rest =>
    if ((jsSplitSpace cur.content).length : ℤ) < words then
      mergeLoop words (mergeTwo cur c) rest
    else
      cur :: mergeLoop words c rest

/-- The re-indexing `map` at the end of `mergeCues`. -/
def reindexFrom (i : ℕ) : List Cue → List Cue
  | [] => []
  | c :: rest => { c with index := i } :: reindexFrom (i + 1) rest

/-- `SubMaker.mergeCues(words)`. -/
def mergeCues (words : ℤ) (cues : List Cue) : Except String (List Cue) :=
  if words ≤ 0 then .error "ValueError: Invalid number of words to merge, expected > 0"
  else
    match cues with
    | [] => .ok []
    | c :: rest => .ok (reindexFrom 1 (mergeLoop words c rest))

/-- `SubMaker.getSrt()`. -/
def getSrt (cues : List Cue) : String :=
  jsJoin "\r\n" (cues.map fun cue =>
    decimalRepr cue.index ++ "\r\n" ++ formatTime cue.start ++ " --> " ++
      formatTime cue.stop ++ "\r\n" ++ cue.content ++ "\r\n")

/-- A WordBoundary event, as fed to `SubMaker.feed` by the cue-merge
property (offset/duration in 100-ns ticks). -/
structure WBEvent where
  offset : ℤ
  duration : ℤ
  text : String
  deriving DecidableEq

/-- The `TTSChunk` carrying a `WBEvent`. -/
def wbChunk (e : WBEvent) : TTSChunk :=
  { type := "WordBoundary", offset := some e.offset, duration := some e.duration,
    text := some e.text }

/-- Feeding a list of chunks one after the other. -/
def feedAll (cues : List Cue) : List TTSChunk → Except String (List Cue)
  | [] => .ok cues
  | m :: rest =>
    match feed cues m with
    | .error e => .error e
    | .ok cues2 => feedAll cues2 rest

/-- Default values used with `List.getD` in statements. -/
def dCue : Cue := ⟨0, 0, 0, ""⟩

def dWB : WBEvent := ⟨0, 0, ""⟩

/-- The cue `feed` appends for event `e` when `k` cues are already stored. -/
def cueOf (k : ℕ) (e : WBEvent) : Cue :=
  ⟨k + 1, (e.offset : ℚ) / 10000000, ((e.offset + e.duration : ℤ) : ℚ) / 10000000, e.text⟩

/-- The cue list obtained by feeding `events` on top of `k` existing cues. -/
def buildCues (k : ℕ) : List WBEvent → List Cue
  | [] => []
  | e :: rest => cueOf k e :: buildCues (k + 1) rest

/-- Folding a run of cues into its first cue, as `mergeCues`'s loop does. -/
def agg (cur : Cue) (l : List Cue) : Cue := l.foldl mergeTwo cur

/-- Aggregation of a cue list in groups of three (specification-side view of
what `mergeCues(3)` computes on one-word cues). -/
def groupCues : List Cue → List Cue
  | [] => []
  | c :: rest => agg c (rest.take 2) :: groupCues (rest.drop 2)
  termination_by l => l.length
  decreasing_by simp [List.length_drop]; omega

end SubMaker

/-! ### The SRT example (C9) -/

theorem formatTime_zero : SubMaker.formatTime 0 = "00:00:00,000" := by
  unfold SubMaker.formatTime jsFmod jsTrunc jsMathRound
  norm_num [Int.floor_eq_zero_iff]
  decide

theorem formatTime_one : SubMaker.formatTime 1 = "00:00:01,000" := by
  unfold SubMaker.formatTime jsFmod jsTrunc jsMathRound
  norm_num [Int.floor_eq_zero_iff]
  decide

theorem formatTime_two : SubMaker.formatTime 2 = "00:00:02,000" := by
  unfold SubMaker.formatTime jsFmod jsTrunc jsMathRound
  norm_num [Int.floor_eq_zero_iff]
  decide

/-- C9: feeding the WordBoundary events `{offset: 0, duration: 10000000,
text: "Hello"}` and `{offset: 10000000, duration: 10000000, text: "world"}`
and serializing without merging produces the SRT block
`1\r\n00:00:00,000 --> 00:00:01,000\r\nHello\r\n` followed by the block
`2\r\n00:00:01,000 --> 00:00:02,000\r\nworld\r\n` (the serializer joins
consecutive blocks with the `\r\n` blank-line separator of the SRT format),
with CRLF line endings, 1-based sequential indices and `HH:MM:SS,mmm`
timestamps. -/
theorem claim_C9_srt_example :
    (SubMaker.feed [] ⟨"WordBoundary", none, some 0, some 10000000, some "Hello"⟩).bind
      (fun cs =>
        (SubMaker.feed cs ⟨"WordBoundary", none, some 10000000, some 10000000, some "world"⟩).map
          SubMaker.getSrt) =
    .ok ("1\r\n00:00:00,000 --> 00:00:01,000\r\nHello\r\n" ++ "\r\n" ++
      "2\r\n00:00:01,000 --> 00:00:02,000\r\nworld\r\n") := by
  have h1 : SubMaker.feed [] ⟨"WordBoundary", none, some 0, some 10000000, some "Hello"⟩ =
      .ok [⟨1, 0, 1, "Hello"⟩] := by
    simp [SubMaker.feed]
  have h2 : SubMaker.feed [⟨1, 0, 1, "Hello"⟩]
      ⟨"WordBoundary", none, some 10000000, some 10000000, some "world"⟩ =
      .ok [⟨1, 0, 1, "Hello"⟩, ⟨2, 1, 2, "world"⟩] := by
    simp [SubMaker.feed]
    norm_num
  have h3 : SubMaker.getSrt [⟨1, 0, 1, "Hello"⟩, ⟨2, 1, 2, "world"⟩] =
      "1\r\n00:00:00,000 --> 00:00:01,000\r\nHello\r\n" ++ "\r\n" ++
        "2\r\n00:00:01,000 --> 00:00:02,000\r\nworld\r\n" := by
    rw [SubMaker.getSrt]
    simp only [List.map_cons, List.map_nil]
    rw [formatTime_zero, formatTime_one, formatTime_two]
    decide
  rw [h1]
  show (SubMaker.feed [⟨1, 0, 1, "Hello"⟩]
      ⟨"WordBoundary", none, some 10000000, some 10000000, some "world"⟩).map
    SubMaker.getSrt = _
  rw [h2]
  show Except.ok (SubMaker.getSrt [⟨1, 0, 1, "Hello"⟩, ⟨2, 1, 2, "world"⟩]) = _
  rw [h3]

/-! ### Word splitting lemmas -/

theorem jsSplitSpaceAux_sep (l2 : List Char) : ∀ (l1 acc : List Char),
    jsSplitSpaceAux (l1 ++ ' ' :: l2) acc = jsSplitSpaceAux l1 acc ++ jsSplitSpaceAux l2 [] := by
  intro l1
  induction l1 with
  | nil => intro acc; simp [jsSplitSpaceAux]
  | cons c r ih =>
    intro acc
    by_cases hc : c = ' '
    · simp [jsSplitSpaceAux, hc, ih]
    · simp [jsSplitSpaceAux, hc, ih]

theorem jsSplitSpace_sep (a b : String) :
    jsSplitSpace (a ++ " " ++ b) = jsSplitSpace a ++ jsSplitSpace b := by
  unfold jsSplitSpace
  have hdata : (a ++ " " ++ b).data = a.data ++ ' ' :: b.data := by
    rw [String.data_append, String.data_append]
    show a.data ++ [' '] ++ b.data = _
    simp
  rw [hdata, jsSplitSpaceAux_sep, List.map_append]

theorem jsSplitSpaceAux_noSpace : ∀ (l acc : List Char), ' ' ∉ l →
    jsSplitSpaceAux l acc = [acc.reverse ++ l] := by
  intro l
  induction l with
  | nil => intro acc _; simp [jsSplitSpaceAux]
  | cons c r ih =>
    intro acc h
    have hc : ¬(c = ' ') := fun hc => h (by simp [hc])
    rw [jsSplitSpaceAux, if_neg hc, ih _ (fun hr => h (by simp [hr]))]
    simp

theorem jsSplitSpace_noSpace {s : String} (h : ' ' ∉ s.data) : jsSplitSpace s = [s] := by
  unfold jsSplitSpace
  rw [jsSplitSpaceAux_noSpace _ _ h]
  have : s.data.asString = s := by cases s; rfl
  simp [this]

/-! ### Cue aggregation lemmas (towards C8) -/

namespace SubMaker

theorem wordCount_mergeTwo (cur c : Cue) :
    (jsSplitSpace (mergeTwo cur c).content).length =
      (jsSplitSpace cur.content).length + (jsSplitSpace c.content).length := by
  show (jsSplitSpace (cur.content ++ " " ++ c.content)).length = _
  rw [jsSplitSpace_sep, List.length_append]

theorem agg_cons (cur c : Cue) (l : List Cue) :
    agg cur (c :: l) = agg (mergeTwo cur c) l := rfl

theorem mergeTwo_start (cur c : Cue) : (mergeTwo cur c).start = cur.start := rfl

theorem mergeTwo_index (cur c : Cue) : (mergeTwo cur c).index = cur.index := rfl

theorem agg_start : ∀ (l : List Cue) (cur : Cue), (agg cur l).start = cur.start := by
  intro l
  induction l with
  | nil => intro cur; rfl
  | cons c r ih => intro cur; rw [agg_cons, ih, mergeTwo_start]

theorem agg_stop_ne_nil : ∀ (l : List Cue) (cur : Cue), l ≠ [] →
    (agg cur l).stop = (l.getD (l.length - 1) dCue).stop := by
  intro l
  induction l with
  | nil => intro cur h; exact absurd rfl h
  | cons c r ih =>
    intro cur _
    cases r with
    | nil => rfl
    | cons x xs =>
      rw [agg_cons, ih (mergeTwo cur c) (by simp)]
      have hidx : (c :: x :: xs).getD ((c :: x :: xs).length - 1) dCue =
          (x :: xs).getD ((x :: xs).length - 1) dCue := by
        simp [List.getD_cons_succ]
      rw [hidx]

theorem agg_stop_nil (cur : Cue) : (agg cur []).stop = cur.stop := rfl

theorem agg_wordCount : ∀ (l : List Cue) (cur : Cue),
    (∀ c ∈ l, (jsSplitSpace c.content).length = 1) →
    (jsSplitSpace (agg cur l).content).length =
      (jsSplitSpace cur.content).length + l.length := by
  intro l
  induction l with
  | nil => intro cur _; simp [agg]
  | cons c r ih =>
    intro cur h
    rw [agg_cons, ih _ (fun x hx => h x (by simp [hx])), wordCount_mergeTwo,
      h c (by simp)]
    simp
    omega

/-- Core shape of `mergeCues(3)`'s loop on one-word tail cues: a running cue
already holding `k` words (1 ≤ k ≤ 3) absorbs the next `3 - k` cues, and the
remainder is grouped in threes. -/
theorem mergeLoop_eq_groups : ∀ (rest : List Cue) (cur : Cue) (k : ℕ),
    (∀ c ∈ rest, (jsSplitSpace c.content).length = 1) →
    (jsSplitSpace cur.content).length = k → 1 ≤ k → k ≤ 3 →
    mergeLoop 3 cur rest = agg cur (rest.take (3 - k)) :: groupCues (rest.drop (3 - k)) := by
  intro rest
  induction rest with
  | nil =>
    intro cur k _ _ _ _
    simp [mergeLoop, agg, groupCues]
  | cons c r ih =>
    intro cur k hall hk hk1 hk3
    by_cases hlt : k < 3
    · rw [mergeLoop, if_pos (by rw [hk]; exact_mod_cast hlt)]
      have hc1 : (jsSplitSpace c.content).length = 1 := hall c (by simp)
      have hmerged : (jsSplitSpace (mergeTwo cur c).content).length = k + 1 := by
        rw [wordCount_mergeTwo, hk, hc1]
      rw [ih (mergeTwo cur c) (k + 1) (fun x hx => hall x (by simp [hx])) hmerged
        (by omega) (by omega)]
      have htake : (c :: r).take (3 - k) = c :: r.take (3 - (k + 1)) := by
        rw [List.take_cons (by omega)]
        have h3k : 3 - k - 1 = 3 - (k + 1) := by omega
        rw [h3k]
      have hdrop : (c :: r).drop (3 - k) = r.drop (3 - (k + 1)) := by
        have h3k : 3 - k = (3 - (k + 1)) + 1 := by omega
        rw [h3k]
        rfl
      rw [htake, hdrop, agg_cons]
    · have hk3' : k = 3 := by omega
      rw [mergeLoop, if_neg (by rw [hk, hk3']; norm_num)]
      have hc1 : (jsSplitSpace c.content).length = 1 := hall c (by simp)
      rw [ih c 1 (fun x hx => hall x (by simp [hx])) hc1 le_rfl (by omega)]
      rw [hk3']
      simp only [Nat.sub_self, List.take_zero, List.drop_zero]
      have hg : groupCues (c :: r) = agg c (r.take 2) :: groupCues (r.drop 2) := by
        rw [groupCues]
      rw [hg]
      rfl

theorem groupCues_length : ∀ (l : List Cue), (groupCues l).length = (l.length + 2) / 3 := by
  intro l
  induction l using groupCues.induct with
  | case1 => simp [groupCues]
  | case2 c rest ih =>
    have hg : groupCues (c :: rest) = agg c (rest.take 2) :: groupCues (rest.drop 2) := by
      rw [groupCues]
    rw [hg]
    simp only [List.length_cons, ih, List.length_drop]
    omega

theorem getD_drop (l : List Cue) (a i : ℕ) :
    (l.drop a).getD i dCue = l.getD (a + i) dCue := by
  simp [List.getD_eq_getElem?_getD, List.getElem?_drop]

theorem groupCues_getD : ∀ (l : List Cue) (i : ℕ), i < (groupCues l).length →
    (groupCues l).getD i dCue =
      agg (l.getD (3 * i) dCue) ((l.drop (3 * i + 1)).take 2) := by
  intro l
  induction l using groupCues.induct with
  | case1 => intro i hi; simp [groupCues] at hi
  | case2 c rest ih =>
    intro i hi
    have hg : groupCues (c :: rest) = agg c (rest.take 2) :: groupCues (rest.drop 2) := by
      rw [groupCues]
    rw [hg] at hi ⊢
    cases i with
    | zero => simp
    | succ j =>
      rw [List.getD_cons_succ]
      rw [ih j (by simpa using hi)]
      have h1 : (rest.drop 2).getD (3 * j) dCue = (c :: rest).getD (3 * (j + 1)) dCue := by
        rw [getD_drop]
        have h3 : 3 * (j + 1) = (2 + 3 * j) + 1 := by omega
        rw [h3, List.getD_cons_succ]
      have h2 : (rest.drop 2).drop (3 * j + 1) = (c :: rest).drop (3 * (j + 1) + 1) := by
        rw [List.drop_drop]
        have h3 : 3 * (j + 1) + 1 = (2 + (3 * j + 1)) + 1 := by omega
        rw [h3]
        rfl
      rw [h1, h2]

theorem buildCues_length : ∀ (evs : List WBEvent) (k : ℕ),
    (buildCues k evs).length = evs.length := by
  intro evs
  induction evs with
  | nil => intro k; rfl
  | cons e rest ih => intro k; simp [buildCues, ih]

theorem buildCues_getD : ∀ (evs : List WBEvent) (k i : ℕ), i < evs.length →
    (buildCues k evs).getD i dCue = cueOf (k + i) (evs.getD i dWB) := by
  intro evs
  induction evs with
  | nil => intro k i hi; simp at hi
  | cons e rest ih =>
    intro k i hi
    cases i with
    | zero => simp [buildCues]
    | succ j =>
      rw [buildCues, List.getD_cons_succ, List.getD_cons_succ,
        ih (k + 1) j (by simpa using hi)]
      congr 1
      omega

theorem buildCues_mem_content : ∀ (evs : List WBEvent) (k : ℕ) (c : Cue),
    c ∈ buildCues k evs → ∃ e ∈ evs, c.content = e.text := by
  intro evs
  induction evs with
  | nil => intro k c hc; simp [buildCues] at hc
  | cons e rest ih =>
    intro k c hc
    rw [buildCues] at hc
    rcases List.mem_cons.mp hc with h | h
    · exact ⟨e, by simp, by rw [h]; rfl⟩
    · obtain ⟨e', he', hcontent⟩ := ih (k + 1) c h
      exact ⟨e', by simp [he'], hcontent⟩

theorem feedAll_build : ∀ (events : List WBEvent) (cues : List Cue),
    feedAll cues (events.map wbChunk) = .ok (cues ++ buildCues cues.length events) := by
  intro events
  induction events with
  | nil => intro cues; simp [feedAll, buildCues]
  | cons e rest ih =>
    intro cues
    rw [List.map_cons, feedAll]
    have hfeed : feed cues (wbChunk e) = .ok (cues ++ [cueOf cues.length e]) := by
      rw [feed, if_neg (by simp [wbChunk])]
      rfl
    rw [hfeed]
    show feedAll (cues ++ [cueOf cues.length e]) (rest.map wbChunk) = _
    rw [ih (cues ++ [cueOf cues.length e])]
    simp [buildCues]

theorem reindexFrom_length : ∀ (l : List Cue) (j : ℕ),
    (reindexFrom j l).length = l.length := by
  intro l
  induction l with
  | nil => intro j; rfl
  | cons c rest ih => intro j; simp [reindexFrom, ih]

theorem reindexFrom_getD : ∀ (l : List Cue) (j i : ℕ), i < l.length →
    (reindexFrom j l).getD i dCue = { l.getD i dCue with index := j + i } := by
  intro l
  induction l with
  | nil => intro j i hi; simp at hi
  | cons c rest ih =>
    intro j i hi
    cases i with
    | zero => simp [reindexFrom]
    | succ m =>
      rw [reindexFrom, List.getD_cons_succ, List.getD_cons_succ,
        ih (j + 1) m (by simpa using hi)]
      have harith : j + 1 + m = j + (m + 1) := by omega
      rw [harith]

theorem getD_take (l : List Cue) (n i : ℕ) (h : i < n) :
    (l.take n).getD i dCue = l.getD i dCue := by
  simp [List.getD_eq_getElem?_getD, List.getElem?_take, h]

theorem getD_mem {l : List Cue} {i : ℕ} (h : i < l.length) : l.getD i dCue ∈ l := by
  rw [List.getD_eq_getElem l dCue h]
  exact List.getElem_mem h

end SubMaker

/-- C8: for every `N > 0`, feeding `N` WordBoundary events whose texts each
contain exactly one whitespace-separated word and then calling `mergeCues(3)`
leaves `⌈N/3⌉ = (N+2)/3` cues; every cue except possibly the last contains
exactly 3 space-separated words, each cue's `startSeconds` is its first
constituent's `offset/1e7`, its `endSeconds` is its last constituent's
`(offset+duration)/1e7`, and indices run sequentially from 1. -/
theorem claim_C8_cue_merge (events : List SubMaker.WBEvent) (hne : events ≠ [])
    (h1w : ∀ e ∈ events, e.text.data ≠ [] ∧ ' ' ∉ e.text.data) :
    ∃ merged : List SubMaker.Cue,
      (SubMaker.feedAll [] (events.map SubMaker.wbChunk)).bind (SubMaker.mergeCues 3) =
        .ok merged ∧
      merged.length = (events.length + 2) / 3 ∧
      (∀ i, i + 1 < merged.length →
        (jsSplitSpace (merged.getD i SubMaker.dCue).content).length = 3) ∧
      (∀ i, i < merged.length → (merged.getD i SubMaker.dCue).index = i + 1) ∧
      (∀ i, i < merged.length → (merged.getD i SubMaker.dCue).start =
        ((events.getD (3 * i) SubMaker.dWB).offset : ℚ) / 10000000) ∧
      (∀ i, i < merged.length → (merged.getD i SubMaker.dCue).stop =
        (((events.getD (min (3 * i + 2) (events.length - 1)) SubMaker.dWB).offset +
          (events.getD (min (3 * i + 2) (events.length - 1)) SubMaker.dWB).duration : ℤ) : ℚ) /
          10000000) := by
  classical
  set N := events.length with hN
  set cues := SubMaker.buildCues 0 events with hcues
  have hlen : cues.length = N := SubMaker.buildCues_length events 0
  have hfeed : SubMaker.feedAll [] (events.map SubMaker.wbChunk) = .ok cues := by
    rw [SubMaker.feedAll_build events []]
    simp
  have hones : ∀ c ∈ cues, (jsSplitSpace c.content).length = 1 := by
    intro c hc
    obtain ⟨e, he, hcontent⟩ := SubMaker.buildCues_mem_content events 0 c hc
    rw [hcontent, jsSplitSpace_noSpace (h1w e he).2]
    rfl
  -- the merge result, in closed form
  have hmerge : SubMaker.mergeCues 3 cues =
      .ok (SubMaker.reindexFrom 1 (SubMaker.groupCues cues)) := by
    cases hc : cues with
    | nil =>
      exfalso
      rw [hc] at hlen
      simp at hlen
      exact hne (List.length_eq_zero.mp (by omega))
    | cons c0 rest =>
      have hrest : ∀ c ∈ rest, (jsSplitSpace c.content).length = 1 := by
        intro c hcmem; exact hones c (by rw [hc]; simp [hcmem])
      have hc0 : (jsSplitSpace c0.content).length = 1 := hones c0 (by rw [hc]; simp)
      have hloop := SubMaker.mergeLoop_eq_groups rest c0 1 hrest hc0 le_rfl (by omega)
      have hg : SubMaker.groupCues (c0 :: rest) =
          SubMaker.agg c0 (rest.take 2) :: SubMaker.groupCues (rest.drop 2) := by
        rw [SubMaker.groupCues]
      show (if (3:ℤ) ≤ 0 then
          Except.error "ValueError: Invalid number of words to merge, expected > 0"
        else Except.ok (SubMaker.reindexFrom 1 (SubMaker.mergeLoop 3 c0 rest))) = _
      rw [if_neg (by norm_num), hloop, hg]
  refine ⟨SubMaker.reindexFrom 1 (SubMaker.groupCues cues), ?_, ?_, ?_, ?_, ?_, ?_⟩
  · rw [hfeed]
    show SubMaker.mergeCues 3 cues = _
    rw [hmerge]
  · rw [SubMaker.reindexFrom_length, SubMaker.groupCues_length, hlen]
  · -- word counts of all non-final cues
    intro i hi
    rw [SubMaker.reindexFrom_length, SubMaker.groupCues_length, hlen] at hi
    have higc : i < (SubMaker.groupCues cues).length := by
      rw [SubMaker.groupCues_length, hlen]; omega
    rw [SubMaker.reindexFrom_getD _ _ _ higc, SubMaker.groupCues_getD _ _ higc]
    show (jsSplitSpace (SubMaker.agg (cues.getD (3 * i) SubMaker.dCue)
      ((cues.drop (3 * i + 1)).take 2)).content).length = 3
    have h3i : 3 * i < N := by omega
    have hbase : (jsSplitSpace (cues.getD (3 * i) SubMaker.dCue).content).length = 1 :=
      hones _ (SubMaker.getD_mem (by omega))
    have htail : ∀ c ∈ (cues.drop (3 * i + 1)).take 2,
        (jsSplitSpace c.content).length = 1 := by
      intro c hcmem
      exact hones c (List.mem_of_mem_drop (List.mem_of_mem_take hcmem))
    rw [SubMaker.agg_wordCount _ _ htail, hbase]
    have hlen2 : ((cues.drop (3 * i + 1)).take 2).length = 2 := by
      rw [List.length_take, List.length_drop, hlen]
      omega
    omega
  · -- sequential indices
    intro i hi
    have higc : i < (SubMaker.groupCues cues).length := by
      rw [SubMaker.reindexFrom_length] at hi; exact hi
    rw [SubMaker.reindexFrom_getD _ _ _ higc]
    show 1 + i = i + 1
    omega
  · -- start of each cue
    intro i hi
    have higc : i < (SubMaker.groupCues cues).length := by
      rw [SubMaker.reindexFrom_length] at hi; exact hi
    have hiK : i < (N + 2) / 3 := by
      rw [SubMaker.groupCues_length, hlen] at higc; exact higc
    have h3i : 3 * i < N := by omega
    rw [SubMaker.reindexFrom_getD _ _ _ higc, SubMaker.groupCues_getD _ _ higc]
    show (SubMaker.agg (cues.getD (3 * i) SubMaker.dCue)
      ((cues.drop (3 * i + 1)).take 2)).start = _
    rw [SubMaker.agg_start, hcues, SubMaker.buildCues_getD events 0 (3 * i) (by omega)]
    rfl
  · -- stop of each cue
    intro i hi
    have higc : i < (SubMaker.groupCues cues).length := by
      rw [SubMaker.reindexFrom_length] at hi; exact hi
    have hiK : i < (N + 2) / 3 := by
      rw [SubMaker.groupCues_length, hlen] at higc; exact higc
    have h3i : 3 * i < N := by omega
    rw [SubMaker.reindexFrom_getD _ _ _ higc, SubMaker.groupCues_getD _ _ higc]
    show (SubMaker.agg (cues.getD (3 * i) SubMaker.dCue)
      ((cues.drop (3 * i + 1)).take 2)).stop = _
    set t := (cues.drop (3 * i + 1)).take 2 with ht
    have htlen : t.length = min 2 (N - (3 * i + 1)) := by
      rw [ht, List.length_take, List.length_drop, hlen]
    by_cases hsmall : N = 3 * i + 1
    · have htnil : t = [] := by
        apply List.length_eq_zero.mp
        rw [htlen]; omega
      have hmin : min (3 * i + 2) (N - 1) = 3 * i := by omega
      rw [htnil, SubMaker.agg_stop_nil, hmin, hcues,
        SubMaker.buildCues_getD events 0 (3 * i) (by omega)]
      rfl
    · have htne : t ≠ [] := by
        intro habs
        have := congrArg List.length habs
        rw [htlen] at this
        simp at this
        omega
      rw [SubMaker.agg_stop_ne_nil t _ htne]
      have hidx : t.getD (t.length - 1) SubMaker.dCue =
          cues.getD (3 * i + 1 + (t.length - 1)) SubMaker.dCue := by
        rw [ht, SubMaker.getD_take _ _ _ (by rw [← ht, htlen]; omega),
          SubMaker.getD_drop]
      rw [hidx]
      have hmin : 3 * i + 1 + (t.length - 1) = min (3 * i + 2) (N - 1) := by
        rw [htlen]; omega
      rw [hmin, hcues, SubMaker.buildCues_getD events 0 _ (by omega)]
      rfl

/-- Concrete input for the C8 witness: four one-word WordBoundary events. -/
def c8Events : List SubMaker.WBEvent :=
  [⟨0, 10, "a"⟩, ⟨20, 10, "b"⟩, ⟨40, 10, "c"⟩, ⟨60, 10, "d"⟩]

/-- Witness for C8 at a concrete list of four one-word events. -/
theorem claim_C8_cue_merge_witness :
    c8Events ≠ [] ∧ (∀ e ∈ c8Events, e.text.data ≠ [] ∧ ' ' ∉ e.text.data) ∧
    ∃ merged : List SubMaker.Cue,
      (SubMaker.feedAll [] (c8Events.map SubMaker.wbChunk)).bind (SubMaker.mergeCues 3) =
        .ok merged ∧
      merged.length = (c8Events.length + 2) / 3 ∧
      (∀ i, i + 1 < merged.length →
        (jsSplitSpace (merged.getD i SubMaker.dCue).content).length = 3) ∧
      (∀ i, i < merged.length → (merged.getD i SubMaker.dCue).index = i + 1) ∧
      (∀ i, i < merged.length → (merged.getD i SubMaker.dCue).start =
        ((c8Events.getD (3 * i) SubMaker.dWB).offset : ℚ) / 10000000) ∧
      (∀ i, i < merged.length → (merged.getD i SubMaker.dCue).stop =
        (((c8Events.getD (min (3 * i + 2) (c8Events.length - 1)) SubMaker.dWB).offset +
          (c8Events.getD (min (3 * i + 2) (c8Events.length - 1)) SubMaker.dWB).duration : ℤ) :
          ℚ) / 10000000) :=
  ⟨by decide, by decide, claim_C8_cue_merge c8Events (by decide) (by decide)⟩

/-! ## `unescape` (`src/utils.ts`) -/

/-- Global string replacement (`String.prototype.replace` with a global
pattern), with fuel so that the recursion is structural; at each step at
least one character of the input is consumed, so `l.length` fuel suffices. -/
def replaceAllAux (pat repl : List Char) : ℕ → List Char → List Char
  | 0, l => l
  | _ + 1, [] => []
  | fuel + 1, c :: rest =>
    if pat.isPrefixOf (c :: rest) ∧ pat ≠ [] then
      repl ++ replaceAllAux pat repl fuel (rest.drop (pat.length - 1))
    else
      c :: replaceAllAux pat repl fuel rest

/-- `s.replace(/pat/g, repl)` for a literal pattern. -/
def jsReplaceAll (pat repl s : String) : String :=
  (replaceAllAux pat.data repl.data s.data.length s.data).asString

/-- `unescape(text)` from `src/utils.ts`: three sequential global replaces of
`&amp;`, `&lt;`, `&gt;` (note: not `&apos;`/`&quot;`). -/
def unescape (text : String) : String :=
  jsReplaceAll "&gt;" ">" (jsReplaceAll "&lt;" "<" (jsReplaceAll "&amp;" "&" text))

/-! ## Communicate / IsomorphicCommunicate frame handling

(`src/communicate.ts` = `src/unnamed/part_007`, and
`src/isomorphic-communicate.ts`.) The two classes' `parseMetadata` bodies are
identical; their text-frame handlers differ only in the `turn.end` branch.
JSON parsing is a platform primitive, so a decoded `audio.metadata` frame is
modelled as its `Path` header plus the list of already-decoded metadata
items. -/

namespace Communicate

/-- One entry of the `Metadata` array of an `audio.metadata` frame:
`Type`, `Data.Offset`, `Data.Duration`, `Data.text.Text`. -/
structure MetaItem where
  itemType : String
  offset : ℤ
  duration : ℤ
  text : String
  deriving DecidableEq

/-- The numeric timeline fields of `CommunicateState` (`src/types.ts`).
The remaining fields (`partialText`, a byte buffer, and the one-shot
`streamWasCalled` flag) do not interact with the frame handler and are
omitted from this record. -/
structure CommunicateState where
  offsetCompensation : ℤ
  lastDurationOffset : ℤ
  deriving DecidableEq

/-- What the message handler pushes onto `messageQueue` (the `'close'`
marker is pushed by the close event, not by the message handler). -/
inductive QueueItem where
  | chunk (c : TTSChunk)
  | errorItem (msg : String)
  deriving DecidableEq

/-- `Communicate.parseMetadata(data)` — identical in
`IsomorphicCommunicate`. Returns on the *first* `WordBoundary` item; skips
`SessionEnd` items; throws `UnknownResponse` on any other type; throws
`UnexpectedResponse` when the items are exhausted. -/
def parseMetadata (st : CommunicateState) : List MetaItem → Except String TTSChunk
  | [] => .error "UnexpectedResponse: No WordBoundary metadata found"
  | item :: rest =>
    if item.itemType = "WordBoundary" then
      .ok { type := "WordBoundary",
            offset := some (item.offset + st.offsetCompensation),
            duration := some item.duration,
            text := some (unescape item.text) }
    else if item.itemType = "SessionEnd" then
      parseMetadata st rest
    else
      .error ("UnknownResponse: Unknown metadata type: " ++ item.itemType)

/-- The text-frame branch of `Communicate._stream`'s message handler
(`src/unnamed/part_007`, lines 155-174). Result: new state, queued items,
and whether `websocket.close()` was called. -/
def handleTextFrame (st : CommunicateState) (path : String) (items : List MetaItem) :
    CommunicateState × List QueueItem × Bool :=
  if path = "audio.metadata" then
    match parseMetadata st items with
    | .ok parsed =>
      ({ st with lastDurationOffset := parsed.offset.getD 0 + parsed.duration.getD 0 },
        [.chunk parsed], false)
    | .error e => (st, [.errorItem e], false)
  else if path = "turn.end" then
    ({ st with offsetCompensation := st.lastDurationOffset }, [], true)
  else if path ≠ "response" ∧ path ≠ "turn.start" then
    (st, [.errorItem ("UnknownResponse: Unknown path received: " ++ path)], false)
  else
    (st, [], false)

end Communicate

namespace IsoCommunicate

open Communicate

/-- The text-frame branch of `IsomorphicCommunicate._stream`'s message
handler (`src/isomorphic-communicate.ts`, lines 169-188). Identical to
`Communicate.handleTextFrame` except that the `turn.end` branch executes
`this.state.offsetCompensation = this.state.lastDurationOffset;`
followed by `this.state.offsetCompensation += 8_750_000;`. -/
def handleTextFrame (st : CommunicateState) (path : String) (items : List MetaItem) :
    CommunicateState × List QueueItem × Bool :=
  if path = "audio.metadata" then
    match parseMetadata st items with
    | .ok parsed =>
      ({ st with lastDurationOffset := parsed.offset.getD 0 + parsed.duration.getD 0 },
        [.chunk parsed], false)
    | .error e => (st, [.errorItem e], false)
  else if path = "turn.end" then
    ({ st with offsetCompensation := st.lastDurationOffset + 8750000 }, [], true)
  else if path ≠ "response" ∧ path ≠ "turn.start" then
    (st, [.errorItem ("UnknownResponse: Unknown path received: " ++ path)], false)
  else
    (st, [], false)

end IsoCommunicate

/-- C2 counterexample: in `IsomorphicCommunicate`, processing `turn.end` from
a state with `lastDurationOffset = 5000000` sets `offsetCompensation` to
`13750000 = 5000000 + 8750000`, not to `lastDurationOffset` — the claimed
"no additional constant added" fails on this engine. -/
theorem claim_C2_iso_adds_constant :
    (IsoCommunicate.handleTextFrame ⟨0, 5000000⟩ "turn.end" []).1.offsetCompensation =
      13750000 ∧
    (Communicate.CommunicateState.mk 0 5000000).lastDurationOffset = 5000000 ∧
    (13750000 : ℤ) ≠ 5000000 := by
  refine ⟨rfl, rfl, by decide⟩

/-- C2 (amended): `offsetCompensation` is written only by the `turn.end`
branch of the text-frame handler; on `turn.end`, `Communicate` sets it to
exactly `lastDurationOffset`, while `IsomorphicCommunicate` sets it to
`lastDurationOffset + 8_750_000`; every other frame leaves it unchanged. -/
theorem claim_C2_offset_compensation (st : Communicate.CommunicateState)
    (path : String) (items : List Communicate.MetaItem) :
    (Communicate.handleTextFrame st "turn.end" items).1.offsetCompensation =
      st.lastDurationOffset ∧
    (IsoCommunicate.handleTextFrame st "turn.end" items).1.offsetCompensation =
      st.lastDurationOffset + 8750000 ∧
    (path ≠ "turn.end" →
      (Communicate.handleTextFrame st path items).1.offsetCompensation =
          st.offsetCompensation ∧
        (IsoCommunicate.handleTextFrame st path items).1.offsetCompensation =
          st.offsetCompensation) := by
  refine ⟨rfl, rfl, ?_⟩
  intro hpath
  by_cases h1 : path = "audio.metadata"
  · subst h1
    cases hp : Communicate.parseMetadata st items with
    | ok parsed =>
      constructor
      · simp [Communicate.handleTextFrame, hp]
      · simp [IsoCommunicate.handleTextFrame, hp]
    | error e =>
      constructor
      · simp [Communicate.handleTextFrame, hp]
      · simp [IsoCommunicate.handleTextFrame, hp]
  · constructor
    · rw [Communicate.handleTextFrame, if_neg h1, if_neg hpath]
      split <;> rfl
    · rw [IsoCommunicate.handleTextFrame, if_neg h1, if_neg hpath]
      split <;> rfl

/-- Witness for C2 at a non-`turn.end` frame. -/
theorem claim_C2_offset_compensation_witness :
    ("response" : String) ≠ "turn.end" ∧
    ((Communicate.handleTextFrame ⟨3, 7⟩ "response" []).1.offsetCompensation = 3 ∧
      (IsoCommunicate.handleTextFrame ⟨3, 7⟩ "response" []).1.offsetCompensation = 3) :=
  ⟨by decide, (claim_C2_offset_compensation ⟨3, 7⟩ "response" []).2.2 (by decide)⟩

/-- C5 counterexample: a well-formed `audio.metadata` frame whose only item
has type `SessionEnd` makes `parseMetadata` throw `UnexpectedResponse`
("No WordBoundary metadata found") — an outcome the claim excludes
("SessionEnd is ignored without raising an error; no other outcome occurs"). -/
theorem claim_C5_sessionEnd_only_frame_errors :
    Communicate.parseMetadata ⟨0, 0⟩ [⟨"SessionEnd", 0, 0, ""⟩] =
      .error "UnexpectedResponse: No WordBoundary metadata found" := rfl

/-- C5 (amended): `parseMetadata` returns on the *first* `WordBoundary` item
(offset = item offset + `offsetCompensation`, duration copied, text
XML-unescaped) and ignores everything after it; `SessionEnd` items before it
are skipped; any other item type before it raises `UnknownResponse`; and a
frame with no `WordBoundary` item raises `UnexpectedResponse`. -/
theorem claim_C5_parse_metadata (st : Communicate.CommunicateState) (o d : ℤ)
    (t : String) (item : Communicate.MetaItem) (rest : List Communicate.MetaItem) :
    Communicate.parseMetadata st (⟨"WordBoundary", o, d, t⟩ :: rest) =
      .ok ⟨"WordBoundary", none, some (o + st.offsetCompensation), some d,
        some (unescape t)⟩ ∧
    Communicate.parseMetadata st (⟨"SessionEnd", o, d, t⟩ :: rest) =
      Communicate.parseMetadata st rest ∧
    (item.itemType ≠ "WordBoundary" → item.itemType ≠ "SessionEnd" →
      Communicate.parseMetadata st (item :: rest) =
        .error ("UnknownResponse: Unknown metadata type: " ++ item.itemType)) ∧
    Communicate.parseMetadata st [] =
      .error "UnexpectedResponse: No WordBoundary metadata found" := by
  refine ⟨?_, ?_, ?_, rfl⟩
  · simp [Communicate.parseMetadata]
  · simp [Communicate.parseMetadata]
  · intro h1 h2
    simp [Communicate.parseMetadata, h1, h2]

/-- Witness for C5 at a concrete unknown metadata type. -/
theorem claim_C5_parse_metadata_witness :
    (Communicate.MetaItem.mk "Bogus" 0 0 "").itemType ≠ "WordBoundary" ∧
    (Communicate.MetaItem.mk "Bogus" 0 0 "").itemType ≠ "SessionEnd" ∧
    Communicate.parseMetadata ⟨0, 0⟩ [⟨"Bogus", 0, 0, ""⟩] =
      .error ("UnknownResponse: Unknown metadata type: " ++
        (Communicate.MetaItem.mk "Bogus" 0 0 "").itemType) :=
  ⟨by decide, by decide,
    (claim_C5_parse_metadata ⟨0, 0⟩ 0 0 "" ⟨"Bogus", 0, 0, ""⟩ []).2.2.1
      (by decide) (by decide)⟩

/-! ## The per-segment retry policy of `stream()` (C3)

`Communicate.stream` (`src/unnamed/part_007`, lines 284-307) wraps each
segment's `this._stream()` in `try/catch`. When the caught error is an
`AxiosError` with `e.response?.status === 403`, the `catch` first calls
`DRM.handleClientResponseError(e)` — which may itself throw
`SkewAdjustmentError` (absent headers, absent or empty `Date` header); such
a throw escapes the `catch` uncaught, so no retry happens. Only when the
handler returns normally is the same segment's `_stream()` run a second
time, and an error thrown by that retry also escapes the `catch`. Either
escaping error aborts the `for` loop over segments.
`IsomorphicCommunicate.stream` (`src/isomorphic-communicate.ts`, lines
324-342) has a `catch` that only rethrows (`throw e`), with a comment noting
that axios errors do not occur on the WebSocket path.

An attempt of `_stream()` is modelled by its outcome — the yielded chunks,
or the thrown error; a segment is modelled by the pair of outcomes its first
and (potential) second `_stream()` call would produce. The wall-clock
reading the handler uses is abstracted to one `wallMs` value. -/

namespace Communicate

/-- An `AxiosError`'s `response` object: its `status` and its (possibly
absent) header map. -/
structure AxiosResponse where
  status : ℕ
  headers : Option (List (String × String))
  deriving DecidableEq

/-- The errors a session can surface (string payloads are messages). -/
inductive StreamErr where
  | axios (response : Option AxiosResponse)
  | webSocketFailure (msg : String)
  | noAudioReceived
  | unknownResponse (msg : String)
  | unexpectedResponse (msg : String)
  | skewAdjustment (msg : String)
  deriving DecidableEq

/-- `e instanceof AxiosError && e.response?.status === 403`. -/
def isAxios403 : StreamErr → Bool
  | .axios (some r) => decide (r.status = 403)
  | _ => false

/-- One segment of `Communicate.stream`: run the first attempt; on an
`AxiosError`-403 failure call `DRM.handleClientResponseError` — if it throws
`SkewAdjustmentError`, that error escapes with no retry; if it returns (with
an updated skew), run the second attempt, whose outcome (success or failure)
is final; any other failure is rethrown. Result: the segment's outcome,
whether the retry ran, and the resulting process-wide skew. -/
def segmentRun (dateParseMs : String → JsNum) (wallMs : ℚ) (skew : JsNum)
    (first second : Except StreamErr (List TTSChunk)) :
    Except StreamErr (List TTSChunk) × Bool × JsNum :=
  match first with
  | .ok msgs => (.ok msgs, false, skew)
  | .error e =>
    match e with
    | .axios (some r) =>
      if r.status = 403 then
        match DRM.handleClientResponseError dateParseMs wallMs skew r.headers with
        | .error msg => (.error (.skewAdjustment msg), false, skew)
        | .ok newSkew => (second, true, newSkew)
      else (.error e, false, skew)
    | _ => (.error e, false, skew)

/-- `Communicate.stream` over all segments, threading the skew: yielded
chunks, terminal error (if any), and how many retries were taken. A segment
failure stops the loop; later segments are not attempted. -/
def streamRun (dateParseMs : String → JsNum) (wallMs : ℚ) :
    JsNum →
      List (Except StreamErr (List TTSChunk) × Except StreamErr (List TTSChunk)) →
      List TTSChunk × Option StreamErr × ℕ
  | _, [] => ([], none, 0)
  | skew, (first, second) :: rest =>
    match segmentRun dateParseMs wallMs skew first second with
    | (.ok msgs, retried, skew2) =>
      let r := streamRun dateParseMs wallMs skew2 rest
      (msgs ++ r.1, r.2.1, (if retried then 1 else 0) + r.2.2)
    | (.error e, retried, _) => ([], some e, if retried then 1 else 0)

end Communicate

namespace IsoCommunicate

open Communicate

/-- One segment of `IsomorphicCommunicate.stream`: the `catch` block only
rethrows, so the first attempt's outcome is final and no retry happens. -/
def segmentRun (first _second : Except StreamErr (List TTSChunk)) :
    Except StreamErr (List TTSChunk) × Bool :=
  (first, false)

/-- `IsomorphicCommunicate.stream` over all segments. -/
def streamRun :
    List (Except StreamErr (List TTSChunk) × Except StreamErr (List TTSChunk)) →
      List TTSChunk × Option StreamErr × ℕ
  | [] => ([], none, 0)
  | (first, second) :: rest =>
    match segmentRun first second with
    | (.ok msgs, retried) =>
      let r := streamRun rest
      (msgs ++ r.1, r.2.1, (if retried then 1 else 0) + r.2.2)
    | (.error e, retried) => ([], some e, if retried then 1 else 0)

end IsoCommunicate

/-- C3 counterexample: in `IsomorphicCommunicate.stream`, a segment whose
first attempt fails with a 403-class authentication error carrying a usable
`Date` header is *not* retried: the error propagates (retry count 0) even
though the second attempt would have succeeded — contradicting the claimed
one-retry policy of the engine. -/
theorem claim_C3_iso_never_retries :
    IsoCommunicate.streamRun
        [(.error (.axios (some ⟨403, some [("date", "Mon, 01 Jan 2024 00:00:00 GMT")]⟩)),
          .ok [⟨"audio", some [1], none, none, none⟩])] =
      ([], some (.axios (some ⟨403, some [("date", "Mon, 01 Jan 2024 00:00:00 GMT")]⟩)),
        0) := rfl

/-- C3 (amended): when a segment of `Communicate.stream` fails with an
`AxiosError` whose response status is 403, the engine calls
`DRM.handleClientResponseError` on the failing response's headers; if the
handler throws `SkewAdjustmentError` (absent/empty `Date` header), that
error propagates and no retry happens; if the handler returns, the same
segment's session is retried exactly once and the retry's outcome
(including a second failure) is final. Any other failure propagates
unmodified with no retry; a failing segment stops the stream, so later
segments are never attempted; and `IsomorphicCommunicate.stream` never
retries at all — every failure propagates unmodified. -/
theorem claim_C3_retry_policy (dateParseMs : String → JsNum) (wallMs : ℚ)
    (skew newSkew : JsNum) (m : String) (msgs : List TTSChunk)
    (r : Communicate.AxiosResponse) (e : Communicate.StreamErr)
    (first second : Except Communicate.StreamErr (List TTSChunk))
    (rest : List (Except Communicate.StreamErr (List TTSChunk) ×
      Except Communicate.StreamErr (List TTSChunk))) :
    Communicate.segmentRun dateParseMs wallMs skew (.ok msgs) second =
      (.ok msgs, false, skew) ∧
    (r.status = 403 →
      DRM.handleClientResponseError dateParseMs wallMs skew r.headers = .ok newSkew →
      Communicate.segmentRun dateParseMs wallMs skew (.error (.axios (some r))) second =
        (second, true, newSkew)) ∧
    (r.status = 403 →
      DRM.handleClientResponseError dateParseMs wallMs skew r.headers = .error m →
      Communicate.segmentRun dateParseMs wallMs skew (.error (.axios (some r))) second =
        (.error (.skewAdjustment m), false, skew)) ∧
    (Communicate.isAxios403 e = false →
      Communicate.segmentRun dateParseMs wallMs skew (.error e) second =
        (.error e, false, skew)) ∧
    (∀ e' retried skew2,
      Communicate.segmentRun dateParseMs wallMs skew first second =
        (.error e', retried, skew2) →
      Communicate.streamRun dateParseMs wallMs skew ((first, second) :: rest) =
        ([], some e', if retried then 1 else 0)) ∧
    IsoCommunicate.segmentRun first second = (first, false) := by
  refine ⟨rfl, ?_, ?_, ?_, ?_, rfl⟩
  · intro h403 hhandler
    simp [Communicate.segmentRun, h403, hhandler]
  · intro h403 hhandler
    simp [Communicate.segmentRun, h403, hhandler]
  · intro hfalse
    cases e with
    | axios resp =>
      cases resp with
      | none => rfl
      | some r' =>
        have hst : ¬(r'.status = 403) := by
          simpa [Communicate.isAxios403] using hfalse
        simp [Communicate.segmentRun, hst]
    | webSocketFailure m' => rfl
    | noAudioReceived => rfl
    | unknownResponse m' => rfl
    | unexpectedResponse m' => rfl
    | skewAdjustment m' => rfl
  · intro e' retried skew2 hseg
    rw [Communicate.streamRun, hseg]

/-- Witness for C3 at concrete attempt outcomes: a 403 response whose `Date`
header passes the handler (which, per the C4 behaviour, accepts any
non-empty value) leads to exactly one retry, whose successful outcome is
returned. -/
theorem claim_C3_retry_policy_witness :
    (Communicate.AxiosResponse.mk 403 (some [("date", "x")])).status = 403 ∧
    DRM.handleClientResponseError (fun _ => JsNum.nan) 0 (JsNum.val 0)
      (Communicate.AxiosResponse.mk 403 (some [("date", "x")])).headers =
        .ok JsNum.nan ∧
    Communicate.segmentRun (fun _ => JsNum.nan) 0 (JsNum.val 0)
        (.error (.axios (some ⟨403, some [("date", "x")]⟩)))
        (.ok [⟨"audio", some [1], none, none, none⟩]) =
      (.ok [⟨"audio", some [1], none, none, none⟩], true, JsNum.nan) :=
  ⟨rfl, rfl,
    (claim_C3_retry_policy (fun _ => JsNum.nan) 0 (JsNum.val 0) JsNum.nan ""
      [] ⟨403, some [("date", "x")]⟩ (.axios (some ⟨403, some [("date", "x")]⟩))
      (.error (.axios (some ⟨403, some [("date", "x")]⟩)))
      (.ok [⟨"audio", some [1], none, none, none⟩]) []).2.1 rfl rfl⟩

/-! ## Buffer primitives (`src/utils.ts` works on Node `Buffer`s)

A `Buffer` is a `List ℕ` of byte values. The searched bytes below are
`10 = '\n'`, `13 = '\r'`, `32 = ' '`, `38 = '&'`, `58 = ':'`, `59 = ';'`. -/

namespace Utils

/-- Last index `≤ i` at which byte `b` occurs, else `-1`. -/
def bufLastIndexOfFrom (buf : List ℕ) (b : ℕ) : ℕ → ℤ
  | 0 => if buf.get? 0 = some b then 0 else -1
  | i + 1 =>
    if buf.get? (i + 1) = some b then ((i + 1 : ℕ) : ℤ) else bufLastIndexOfFrom buf b i

/-- Node `buf.lastIndexOf(byte, byteOffset)`: a negative `byteOffset` is
counted from the end of the buffer, an offset past the end is clamped to
`length - 1`, and the result is `-1` when the byte is not found. -/
def bufLastIndexOf (buf : List ℕ) (b : ℕ) (fromIdx : ℤ) : ℤ :=
  let len : ℤ := buf.length
  let f : ℤ := if fromIdx < 0 then len + fromIdx else min fromIdx (len - 1)
  if f < 0 then -1 else bufLastIndexOfFrom buf b f.toNat

/-- Node `buf.lastIndexOf(byte)` (search starts at the end). -/
def bufLastIndexOfEnd (buf : List ℕ) (b : ℕ) : ℤ :=
  bufLastIndexOf buf b ((buf.length : ℤ) - 1)

/-- Node `buf.indexOf(byte, byteOffset)` for a non-negative start offset
(the source only calls it with a non-negative offset). -/
def bufIndexOfFrom (buf : List ℕ) (b : ℕ) (start : ℕ) : ℤ :=
  match (buf.drop start).findIdx? (· = b) with
  | some j => ((start + j : ℕ) : ℤ)
  | none => -1

/-- Search worker for a byte pattern: first position (counting from `i`) at
which `pat` is a prefix. -/
def bufIndexOfSeqAux (pat : List ℕ) : List ℕ → ℕ → Option ℕ
  | [], i => if pat = [] then some i else none
  | c :: rest, i =>
    if pat.isPrefixOf (c :: rest) then some i else bufIndexOfSeqAux pat rest (i + 1)

/-- Node `buf.indexOf(pattern)` for a multi-byte pattern (e.g. `'\r\n\r\n'`),
`-1` when absent. -/
def bufIndexOfSeq (buf pat : List ℕ) : ℤ :=
  match bufIndexOfSeqAux pat buf 0 with
  | some i => (i : ℤ)
  | none => -1

/-- Node `buf.subarray(s, e)`: negative indices are counted from the end,
then clamped to the buffer. -/
def jsSubarray (buf : List ℕ) (s e : ℤ) : List ℕ :=
  let len : ℤ := buf.length
  let s' : ℤ := if s < 0 then max 0 (len + s) else min s len
  let e' : ℤ := if e < 0 then max 0 (len + e) else min e len
  if e' ≤ s' then [] else (buf.drop s'.toNat).take (e' - s').toNat

/-- Node `buf.subarray(s)` (to the end of the buffer). -/
def jsSubarrayFrom (buf : List ℕ) (s : ℤ) : List ℕ := jsSubarray buf s buf.length

/-! ### UTF-8 (Node `buf.toString('utf-8')` and `Buffer.from(str, 'utf-8')`) -/

/-- One Unicode code point encoded to UTF-8 bytes. -/
def utf8EncodeChar (c : ℕ) : List ℕ :=
  if c < 0x80 then [c]
  else if c < 0x800 then [0xC0 + c / 64, 0x80 + c % 64]
  else if c < 0x10000 then [0xE0 + c / 4096, 0x80 + c / 64 % 64, 0x80 + c % 64]
  else [0xF0 + c / 262144, 0x80 + c / 4096 % 64, 0x80 + c / 64 % 64, 0x80 + c % 64]

def utf8Encode (cps : List ℕ) : List ℕ := (cps.map utf8EncodeChar).flatten

/-- WHATWG (and Node) UTF-8 decoding with `U+FFFD` replacement under the
maximal-subpart policy: the code points of `buf.toString('utf-8')`. -/
def utf8DecodeReplace : List ℕ → List ℕ
  | [] => []
  | b :: rest =>
    if b < 0x80 then b :: utf8DecodeReplace rest
    else if b < 0xC2 then 0xFFFD :: utf8DecodeReplace rest
    else if b < 0xE0 then
      match rest with
      | [] => [0xFFFD]
      | b2 :: rest2 =>
        if 0x80 ≤ b2 ∧ b2 < 0xC0 then
          ((b - 0xC0) * 64 + (b2 - 0x80)) :: utf8DecodeReplace rest2
        else 0xFFFD :: utf8DecodeReplace (b2 :: rest2)
    else if b < 0xF0 then
      match rest with
      | [] => [0xFFFD]
      | b2 :: rest2 =>
        if (if b = 0xE0 then 0xA0 else 0x80) ≤ b2 ∧ b2 ≤ (if b = 0xED then 0x9F else 0xBF) then
          match rest2 with
          | [] => [0xFFFD]
          | b3 :: rest3 =>
            if 0x80 ≤ b3 ∧ b3 < 0xC0 then
              ((b - 0xE0) * 4096 + (b2 - 0x80) * 64 + (b3 - 0x80)) :: utf8DecodeReplace rest3
            else 0xFFFD :: utf8DecodeReplace (b3 :: rest3)
        else 0xFFFD :: utf8DecodeReplace (b2 :: rest2)
    else if b < 0xF5 then
      match rest with
      | [] => [0xFFFD]
      | b2 :: rest2 =>
        if (if b = 0xF0 then 0x90 else 0x80) ≤ b2 ∧ b2 ≤ (if b = 0xF4 then 0x8F else 0xBF) then
          match rest2 with
          | [] => [0xFFFD]
          | b3 :: rest3 =>
            if 0x80 ≤ b3 ∧ b3 < 0xC0 then
              match rest3 with
              | [] => [0xFFFD]
              | b4 :: rest4 =>
                if 0x80 ≤ b4 ∧ b4 < 0xC0 then
                  ((b - 0xF0) * 262144 + (b2 - 0x80) * 4096 + (b3 - 0x80) * 64 + (b4 - 0x80))
                    :: utf8DecodeReplace rest4
                else 0xFFFD :: utf8DecodeReplace (b4 :: rest4)
            else 0xFFFD :: utf8DecodeReplace (b3 :: rest3)
        else 0xFFFD :: utf8DecodeReplace (b2 :: rest2)
    else 0xFFFD :: utf8DecodeReplace rest

/-- The JavaScript `String.prototype.trim` whitespace set, on code points. -/
def isJsSpaceCp (c : ℕ) : Bool :=
  c ∈ [9, 10, 11, 12, 13, 32, 0xA0, 0x1680, 0x2000, 0x2001, 0x2002, 0x2003, 0x2004,
    0x2005, 0x2006, 0x2007, 0x2008, 0x2009, 0x200A, 0x2028, 0x2029, 0x202F, 0x205F,
    0x3000, 0xFEFF]

/-- `s.trim()` on a code-point list. -/
def jsTrimCps (l : List ℕ) : List ℕ :=
  ((l.dropWhile isJsSpaceCp).reverse.dropWhile isJsSpaceCp).reverse

/-! ### `getHeadersAndDataFromText` (`src/utils.ts`, lines 12-27) -/

/-- `split('\r\n')` on a code-point list. -/
def splitCRLFAux : List ℕ → List ℕ → List (List ℕ)
  | [], acc => [acc.reverse]
  | 13 :: 10 :: rest, acc => acc.reverse :: splitCRLFAux rest []
  | c :: rest, acc => splitCRLFAux rest (c :: acc)

/-- `split(sep)` on a code-point list, single-code-point separator. -/
def splitByteAux (sep : ℕ) : List ℕ → List ℕ → List (List ℕ)
  | [], acc => [acc.reverse]
  | c :: rest, acc =>
    if c = sep then acc.reverse :: splitByteAux sep rest []
    else splitByteAux sep rest (c :: acc)

/-- `line.split(':', 2)`. -/
def jsSplitColon2 (l : List ℕ) : List (List ℕ) := (splitByteAux 58 l []).take 2

/-- `headers[key] = value` (JS object assignment keeps the first insertion
position on overwrite). -/
def setHeader : List (List ℕ × List ℕ) → List ℕ → List ℕ → List (List ℕ × List ℕ)
  | [], k, v => [(k, v)]
  | (k0, v0) :: rest, k, v =>
    if k0 = k then (k0, v) :: rest else (k0, v0) :: setHeader rest k v

/-- `getHeadersAndDataFromText(message)`: split at the first `\r\n\r\n`,
parse `key:value` header lines from the part before it, and return the
subarray starting `headerLength + 2` bytes in as the data. Header names and
values are code-point lists (the decoded `headerString`). -/
def getHeadersAndDataFromText (message : List ℕ) :
    List (List ℕ × List ℕ) × List ℕ :=
  let headerLength := bufIndexOfSeq message [13, 10, 13, 10]
  let headerCps := utf8DecodeReplace (jsSubarray message 0 headerLength)
  let headers :=
    if headerCps ≠ [] then
      (splitCRLFAux headerCps []).foldl (fun hs line =>
        match jsSplitColon2 line with
        | [k, v] => if k ≠ [] ∧ v ≠ [] then setHeader hs k (jsTrimCps v) else hs
        | _ => hs) []
    else []
  (headers, jsSubarrayFrom message (headerLength + 2))

end Utils

/-! ### C10: the text-frame payload keeps the `\r\n` before the body -/

theorem bufIndexOfSeqAux_spec (pat : List ℕ) : ∀ (l : List ℕ) (j i : ℕ),
    Utils.bufIndexOfSeqAux pat l j = some i →
    ∃ d, i = j + d ∧ pat.isPrefixOf (l.drop d) := by
  intro l
  induction l with
  | nil =>
    intro j i h
    rw [Utils.bufIndexOfSeqAux] at h
    by_cases hp : pat = []
    · rw [if_pos hp] at h
      exact ⟨0, by simpa using h.symm, by simp [hp, List.isPrefixOf]⟩
    · rw [if_neg hp] at h
      exact absurd h (by simp)
  | cons c rest ih =>
    intro j i h
    rw [Utils.bufIndexOfSeqAux] at h
    by_cases hp : pat.isPrefixOf (c :: rest)
    · rw [if_pos hp] at h
      exact ⟨0, by simpa using h.symm, by simpa using hp⟩
    · rw [if_neg hp] at h
      obtain ⟨d, hd, hpre⟩ := ih (j + 1) i h
      exact ⟨d + 1, by omega, by simpa using hpre⟩

theorem bufIndexOfSeq_found {msg pat : List ℕ} {i : ℕ}
    (h : Utils.bufIndexOfSeq msg pat = (i : ℤ)) : pat.isPrefixOf (msg.drop i) := by
  rw [Utils.bufIndexOfSeq] at h
  cases haux : Utils.bufIndexOfSeqAux pat msg 0 with
  | none =>
    rw [haux] at h
    have h' : (-1 : ℤ) = (i : ℤ) := h
    omega
  | some k =>
    rw [haux] at h
    have h' : ((k : ℕ) : ℤ) = (i : ℤ) := h
    have hk : k = i := by exact_mod_cast h'
    obtain ⟨d, hd, hpre⟩ := bufIndexOfSeqAux_spec pat msg 0 k haux
    have hdi : d = i := by omega
    rwa [hdi] at hpre

theorem jsSubarrayFrom_of_le {msg : List ℕ} {s : ℕ} (hs : s ≤ msg.length) :
    Utils.jsSubarrayFrom msg (s : ℤ) = msg.drop s := by
  rw [Utils.jsSubarrayFrom, Utils.jsSubarray]
  simp only [if_neg (by omega : ¬((s : ℤ) < 0)),
    if_neg (by omega : ¬((msg.length : ℤ) < 0)), min_self]
  have hmin : ((s : ℤ) ⊓ (msg.length : ℤ)) = (s : ℤ) :=
    min_eq_left (by exact_mod_cast hs)
  rw [hmin]
  by_cases hse : s = msg.length
  · rw [if_pos (by omega)]
    rw [hse, List.drop_length]
  · rw [if_neg (by omega)]
    have htn : (((msg.length : ℤ) - (s : ℤ)).toNat) = msg.length - s := by omega
    have hsn : ((s : ℤ)).toNat = s := by omega
    rw [htn, hsn, List.take_of_length_le (by simp [List.length_drop])]

/-- C10: whenever a text-frame buffer contains the header separator
`\r\n\r\n` (first occurrence at byte `i`), `getHeadersAndDataFromText`
returns as payload the subarray starting at `i + 2` — two bytes after the
separator's first byte — so the payload always begins with the two bytes
`\r\n` followed by the frame body, never the bare body after the full
4-byte separator. -/
theorem claim_C10_payload_keeps_crlf (msg : List ℕ) (i : ℕ)
    (h : Utils.bufIndexOfSeq msg [13, 10, 13, 10] = (i : ℤ)) :
    (Utils.getHeadersAndDataFromText msg).2 = msg.drop (i + 2) ∧
    msg.drop (i + 2) = 13 :: 10 :: msg.drop (i + 4) := by
  have hpre := bufIndexOfSeq_found h
  have hprefix : [13, 10, 13, 10] <+: msg.drop i := by
    exact List.isPrefixOf_iff_prefix.mp hpre
  obtain ⟨t, ht⟩ := hprefix
  have hlen : i + 4 ≤ msg.length := by
    have h1 : ([13, 10, 13, 10] : List ℕ).length ≤ (msg.drop i).length :=
      List.IsPrefix.length_le ⟨t, ht⟩
    simp [List.length_drop] at h1
    omega
  have ht4 : msg.drop (i + 4) = t := by
    have hstep : (msg.drop i).drop 4 = t := by rw [← ht]; rfl
    rwa [List.drop_drop] at hstep
  have ht2 : msg.drop (i + 2) = 13 :: 10 :: t := by
    have hstep : (msg.drop i).drop 2 = 13 :: 10 :: t := by rw [← ht]; rfl
    rwa [List.drop_drop] at hstep
  refine ⟨?_, by rw [ht2, ht4]⟩
  show Utils.jsSubarrayFrom msg (Utils.bufIndexOfSeq msg [13, 10, 13, 10] + 2) = _
  rw [h]
  have hcast : ((i : ℤ) + 2) = ((i + 2 : ℕ) : ℤ) := by push_cast; ring
  rw [hcast, jsSubarrayFrom_of_le (by omega)]

/-- Witness for C10 at the concrete frame `"A:B\r\n\r\nXY"`. -/
theorem claim_C10_payload_keeps_crlf_witness :
    Utils.bufIndexOfSeq [65, 58, 66, 13, 10, 13, 10, 88, 89] [13, 10, 13, 10] = (3 : ℤ) ∧
    ((Utils.getHeadersAndDataFromText [65, 58, 66, 13, 10, 13, 10, 88, 89]).2 =
        [65, 58, 66, 13, 10, 13, 10, 88, 89].drop 5 ∧
      [65, 58, 66, 13, 10, 13, 10, 88, 89].drop 5 =
        13 :: 10 :: [65, 58, 66, 13, 10, 13, 10, 88, 89].drop 7) :=
  ⟨by decide, claim_C10_payload_keeps_crlf [65, 58, 66, 13, 10, 13, 10, 88, 89] 3 (by decide)⟩

/-! ## SSML envelope and message sizing (`src/utils.ts`, C6) -/

namespace Utils

/-- `TTSConfig` (`src/tts_config.ts`) after construction: four validated
prosody strings. -/
structure TTSConfig where
  voice : String
  rate : String
  volume : String
  pitch : String
  deriving DecidableEq

/-- `mkssml(tc, escapedText)` from `src/utils.ts`. -/
def mkssml (tc : TTSConfig) (escapedText : String) : String :=
  "<speak version='1.0' xmlns='http://www.w3.org/2001/10/synthesis' xml:lang='en-US'>"
    ++ "<voice name='" ++ tc.voice ++ "'>"
    ++ "<prosody pitch='" ++ tc.pitch ++ "' rate='" ++ tc.rate
    ++ "' volume='" ++ tc.volume ++ "'>"
    ++ escapedText
    ++ "</prosody>" ++ "</voice>" ++ "</speak>"

/-- `ssmlHeadersPlusData(requestId, timestamp, ssml)` from `src/utils.ts`. -/
def ssmlHeadersPlusData (requestId timestamp ssml : String) : String :=
  "X-RequestId:" ++ requestId ++ "\r\n"
    ++ "Content-Type:application/ssml+xml\r\n"
    ++ "X-Timestamp:" ++ timestamp ++ "Z\r\n"
    ++ "Path:ssml\r\n\r\n"
    ++ ssml

/-- `calcMaxMesgSize(ttsConfig)` from `src/utils.ts`. The fresh
`connectId()` and `dateToString()` values it embeds in the probe envelope
are passed as arguments (they are runtime values; for ASCII strings Lean's
code-point length agrees with JS's UTF-16 `.length`). -/
def calcMaxMesgSize (requestId timestamp : String) (ttsConfig : TTSConfig) : ℤ :=
  let websocketMaxSize : ℤ := 2 ^ 16
  let overheadPerMessage : ℤ :=
    ((ssmlHeadersPlusData requestId timestamp (mkssml ttsConfig "")).length : ℤ) + 50
  websocketMaxSize - overheadPerMessage

/-- The split size the `Communicate` constructor actually passes to
`splitTextByByteLength` (`src/unnamed/part_007`, lines 95-99): the literal
`4096`, with the `calcMaxMesgSize(this.ttsConfig)` call commented out. -/
def communicateSplitByteLength : ℤ := 4096

/-- The split size the `IsomorphicCommunicate` constructor passes
(`src/isomorphic-communicate.ts`, lines 96-99). -/
def isoCommunicateSplitByteLength (requestId timestamp : String)
    (ttsConfig : TTSConfig) : ℤ :=
  calcMaxMesgSize requestId timestamp ttsConfig

/-- `DEFAULT_VOICE` (`en-US-EmmaMultilingualNeural`) after the
`TTSConfig.validate()` normalization into the service's full display form,
with the default rate/volume/pitch. -/
def defaultNormalizedTTSConfig : TTSConfig :=
  { voice := "Microsoft Server Speech Text to Speech Voice (en-US, EmmaMultilingualNeural)",
    rate := "+0%", volume := "+0%", pitch := "+0Hz" }

end Utils

set_option maxRecDepth 4000 in
/-- C6 counterexample: the `Communicate` constructor passes the constant
`4096`, which differs from `calcMaxMesgSize` for the default ProsodyConfig
(evaluated with a 32-char connection id and the 64-char `dateToString()`
format). -/
theorem claim_C6_communicate_passes_4096 :
    Utils.communicateSplitByteLength = 4096 ∧
    Utils.calcMaxMesgSize "0123456789abcdef0123456789abcdef"
        "Thu, 01 Jan 1970 00:00:00 GMT+0000 (Coordinated Universal Time)"
        Utils.defaultNormalizedTTSConfig ≠ Utils.communicateSplitByteLength := by
  exact ⟨rfl, by decide⟩

/-- C6 (amended): `calcMaxMesgSize` is `2^16` minus (envelope length + 50),
where the envelope is the request-id/content-type/timestamp/path header
block plus the SSML wrapper with empty body; `IsomorphicCommunicate` passes
exactly that value to the segmenter, while `Communicate` passes the fixed
constant `4096` (its `calcMaxMesgSize` call is commented out). -/
theorem claim_C6_split_size (requestId timestamp : String) (cfg : Utils.TTSConfig) :
    Utils.isoCommunicateSplitByteLength requestId timestamp cfg =
      Utils.calcMaxMesgSize requestId timestamp cfg ∧
    Utils.calcMaxMesgSize requestId timestamp cfg =
      2 ^ 16 - (((Utils.ssmlHeadersPlusData requestId timestamp
        (Utils.mkssml cfg "")).length : ℤ) + 50) ∧
    Utils.communicateSplitByteLength = 4096 :=
  ⟨rfl, rfl, rfl⟩

/-! ## The text segmenter (`splitTextByByteLength`, `src/utils.ts` 93-174) -/

namespace Utils

/-- `_findLastNewlineOrSpaceWithinLimit(text, limit)`. -/
def findLastNewlineOrSpaceWithinLimit (text : List ℕ) (limit : ℤ) : ℤ :=
  let slice := jsSubarray text 0 limit
  let splitAt := bufLastIndexOfEnd slice 10
  if splitAt < 0 then bufLastIndexOfEnd slice 32 else splitAt

/-- The `endsWith` test of `_findSafeUtf8SplitPoint`. The literal in the
source file is the three characters `ï¿½` (code points EF BF BD) — the UTF-8
bytes of U+FFFD read back as Latin-1, a mojibake of the intended replacement
character — so that is what the embedding checks. -/
def endsWithMojibake (cps : List ℕ) : Bool := [0xEF, 0xBF, 0xBD].isSuffixOf cps

/-- The decrement loop of `_findSafeUtf8SplitPoint`. -/
def findSafeUtf8SplitPointAux (textSegment : List ℕ) : ℕ → ℕ
  | 0 => 0
  | i + 1 =>
    if endsWithMojibake (utf8DecodeReplace (jsSubarray textSegment 0 (((i : ℕ) + 1 : ℕ) : ℤ)))
    then findSafeUtf8SplitPointAux textSegment i
    else i + 1

/-- `_findSafeUtf8SplitPoint(textSegment)`. -/
def findSafeUtf8SplitPoint (textSegment : List ℕ) : ℤ :=
  (findSafeUtf8SplitPointAux textSegment textSegment.length : ℤ)

/-- The `while (ampersandIndex !== -1)` loop of
`_adjustSplitPointForXmlEntity`, with fuel: the loop does not terminate for
every input (when `splitAt` reaches 0, `lastIndexOf('&', -1)` restarts the
search from the *end* of the buffer). -/
def adjustLoop (text : List ℕ) : ℕ → ℤ → ℤ → Option ℤ
  | 0, _, _ => none
  | fuel + 1, splitAt, ampersandIndex =>
    if ampersandIndex = -1 then some splitAt
    else
      let semicolonIndex := bufIndexOfFrom text 59 ampersandIndex.toNat
      if semicolonIndex ≠ -1 ∧ semicolonIndex < splitAt then some splitAt
      else adjustLoop text fuel ampersandIndex (bufLastIndexOf text 38 (ampersandIndex - 1))

/-- `_adjustSplitPointForXmlEntity(text, splitAt)`. -/
def adjustSplitPointForXmlEntity (text : List ℕ) (splitAt : ℤ) (fuel : ℕ) : Option ℤ :=
  adjustLoop text fuel splitAt (bufLastIndexOf text 38 (splitAt - 1))

/-- The segments the generator yielded, and the error (if any) it ended by
throwing. -/
structure SplitOutcome where
  segments : List (List ℕ)
  err : Option String
  deriving DecidableEq

/-- The `while (buffer.length > byteLength)` loop of `splitTextByByteLength`
plus the final-remainder emission, with fuel. -/
def splitLoop (byteLength : ℤ) : ℕ → List ℕ → Option SplitOutcome
  | 0, _ => none
  | fuel + 1, buffer =>
    if (buffer.length : ℤ) > byteLength then
      let splitAt0 := findLastNewlineOrSpaceWithinLimit buffer byteLength
      let splitAt1 :=
        if splitAt0 < 0 then findSafeUtf8SplitPoint (jsSubarray buffer 0 byteLength)
        else splitAt0
      match adjustSplitPointForXmlEntity buffer splitAt1 fuel with
      | none => none
      | some splitAt =>
        if splitAt ≤ 0 then
          some ⟨[], some ("ValueError: Maximum byte length is too small or "
            ++ "invalid text structure near the ampersand or invalid UTF-8")⟩
        else
          let chunkString := jsTrimCps (utf8DecodeReplace (jsSubarray buffer 0 splitAt))
          match splitLoop byteLength fuel (jsSubarrayFrom buffer splitAt) with
          | none => none
          | some out =>
            some (if chunkString ≠ [] then ⟨utf8Encode chunkString :: out.segments, out.err⟩
              else out)
    else
      let remainingChunk := jsTrimCps (utf8DecodeReplace buffer)
      some ⟨if remainingChunk ≠ [] then [utf8Encode remainingChunk] else [], none⟩

/-- `splitTextByByteLength(text, byteLength)` (`src/utils.ts`, 138-174). -/
def splitTextByByteLength (text : List ℕ) (byteLength : ℤ) (fuel : ℕ) : Option SplitOutcome :=
  if byteLength ≤ 0 then
    some ⟨[], some "ValueError: byteLength must be greater than 0"⟩
  else splitLoop byteLength fuel text

/-- The UTF-8 bytes of an ASCII/BMP Lean string. -/
def textBytes (s : String) : List ℕ := utf8Encode (s.data.map Char.toNat)

end Utils

set_option maxRecDepth 8000 in
/-- C1 (code bug): on the sanitized-and-escaped input
`"\nabcdefgh&apos;ij"` (the escape of `"\nabcdefgh'ij"`, so its only `&`
starts the terminated entity `&apos;`) with byte ceiling `6`, the segmenter
emits the 8-byte segment `"abcdefgh"` — larger than the ceiling. The
word-boundary stage returns split point 0 (the `\n` at index 0), and
`_adjustSplitPointForXmlEntity` then calls `buffer.lastIndexOf('&', -1)`:
Node counts a negative `byteOffset` from the *end* of the buffer, so the
search finds the `&` at index 9 — beyond the ceiling — treats it as
unterminated (no `;` before split point 0), and moves the split point *up*
to 9. The run terminates normally without the `ValueError` the claim (and
the function's own documentation) requires for such inputs. -/
theorem claim_C1_segment_exceeds_ceiling :
    Utils.splitTextByByteLength (Utils.textBytes "\nabcdefgh&apos;ij") 6 32 =
      some ⟨[Utils.textBytes "abcdefgh", Utils.textBytes "&apos;", Utils.textBytes "ij"],
        none⟩ ∧
    ((Utils.textBytes "abcdefgh").length : ℤ) = 8 ∧ (6 : ℤ) < 8 := by
  refine ⟨by decide, by decide, by decide⟩

end EdgeTTS
